import Mathlib

/-!
# Best-effort network flooding with a packet history (`core/net/rime/netflood2.c`)

A shallow embedding of `netflood2_open`, `netflood2_send`, `send` and `recv_from_ipolite`.

Conventions of the embedding

* `uint8_t` values are natural numbers, reduced `% 256` wherever the C code can overflow.
* `linkaddr_t` is the link address read as a number; `linkaddr_cmp` is equality and
  `linkaddr_copy` is assignment.
* `PACKET_HISTORY_SIZE` and `HOPS_MAX` come from `net/rime/netflood2.h`; they are parameters.
  The history loops index with a `uint8_t`, so the embedding is meant for
  `PACKET_HISTORY_SIZE ≤ 255`.
* The two history arrays of `struct netflood_conn` are lists; a connection is well formed
  (`netflood_conn.wf`) when both have length `PACKET_HISTORY_SIZE`.
* A store through an index that is not below `PACKET_HISTORY_SIZE` is a memory fault: the
  resulting state is `none`. Calls made before the fault stay in the trace.
* The outside world is explicit: whether `queuebuf_new_from_packetbuf` and `packetbuf_hdralloc`
  succeed, what `ipolite_send` returns, what the packet buffer holds under the pointer `hdr`
  of `netflood2_send` once `ipolite_send` has returned, and the application callback
  `u->recv`, a function that returns its verdict together with whatever it left in the packet
  buffer. The callback does not re-enter the connection.
* Every call of `ipolite_send` and of `u->recv` is logged as an `Event`.
-/

namespace Netflood2

/-! ## Data model -/

/-- Link address (`linkaddr_t`), read as a number. -/
abbrev linkaddr_t := Nat

/-- Header of a flooded packet, `struct netflood_hdr` (lines 51-55). -/
structure netflood_hdr where
  originator_seqno : Nat
  originator : linkaddr_t
  hops : Nat
deriving DecidableEq, Repr

/-- Contents of the packet buffer when it holds a flooded frame: header, then payload. -/
structure Packet where
  hdr : netflood_hdr
  payload : List Nat
deriving DecidableEq, Repr

/-- Observable calls made by the module. -/
inductive Event where
  /-- `c->u->recv(c, from, &hdr.originator, hops)` with the payload the application sees. -/
  | recv (sender : linkaddr_t) (originator : linkaddr_t) (hops : Nat) (payload : List Nat)
  /-- `ipolite_send(&c->c, interval, hdrsize)` with the buffer contents handed over. -/
  | ipolite_send (interval : Nat) (hdrsize : Nat) (pkt : Packet)
deriving DecidableEq, Repr

/-- Application receive callback: sender, originator, hops, payload; returns the relay verdict
and the buffer contents it leaves behind. -/
abbrev recv_callback := linkaddr_t → linkaddr_t → Nat → List Nat → Bool × List Nat

/-- Callback set `struct netflood_callbacks`; `none` is a `NULL` function pointer. -/
structure netflood_callbacks where
  recv : Option recv_callback

/-- Connection `struct netflood_conn`, as far as `netflood2.c` uses it. -/
structure netflood_conn where
  queue_time : Nat
  u : netflood_callbacks
  last_originators : List linkaddr_t
  last_originator_seqnos : List Nat
  packet_history_i : Nat

/-- Both history arrays have `PACKET_HISTORY_SIZE` slots. -/
def netflood_conn.wf (PACKET_HISTORY_SIZE : Nat) (c : netflood_conn) : Prop :=
  c.last_originators.length = PACKET_HISTORY_SIZE ∧
    c.last_originator_seqnos.length = PACKET_HISTORY_SIZE

instance (PACKET_HISTORY_SIZE : Nat) (c : netflood_conn) :
    Decidable (c.wf PACKET_HISTORY_SIZE) := by
  unfold netflood_conn.wf; infer_instance

/-- Module state: one connection and the file-scope counter `seqno` (line 71). -/
structure State where
  c : netflood_conn
  seqno : Nat

/-- Result of `recv_from_ipolite`: the calls made, and the state (`none` after a memory
fault). -/
structure RecvOutcome where
  trace : List Event
  state : Option State

/-- Result of `netflood2_send`: the calls made, and the state with the returned `int`
(`none` after a memory fault). -/
structure SendOutcome where
  trace : List Event
  result : Option (State × Nat)

/-! ## Operations -/

/-- Store `a[i] = v` into a history array of `PACKET_HISTORY_SIZE` slots. -/
def array_store {α : Type} (PACKET_HISTORY_SIZE : Nat) (a : List α) (i : Nat) (v : α) :
    Option (List α) :=
  if i < PACKET_HISTORY_SIZE then some (a.set i v) else none

/-- The lookup loop (lines 100-107 and 216-224): value of `i_packet_history` when the loop is
left, that is the first slot whose address equals `o`, or the number of slots. -/
def history_lookup : List linkaddr_t → linkaddr_t → Nat
  | [], _ => 0
  | a :: rest, o => if a = o then 0 else history_lookup rest o + 1

/-- Cursor step `INCREMENT_PACKET_HISTORY_I` (lines 65-69). -/
def INCREMENT_PACKET_HISTORY_I (PACKET_HISTORY_SIZE : Nat) (c : netflood_conn) :
    netflood_conn :=
  let c1 := { c with packet_history_i := c.packet_history_i + 1 }
  if c1.packet_history_i ≥ PACKET_HISTORY_SIZE then { c1 with packet_history_i := 0 } else c1

/-- Sequence number put on the wire for counter value `seqno` (lines 201-204). -/
def shifted_seqno (seqno : Nat) : Nat :=
  let s := (seqno <<< 1) % 256
  if seqno > 127 then (s + 1) % 256 else s

/-- The test of lines 113-116 on the loop index, the cached and the received sequence
number. -/
def is_new (PACKET_HISTORY_SIZE i_packet_history last_shifted_seqnr originator_seqno : Nat) :
    Bool :=
  decide (i_packet_history ≥ PACKET_HISTORY_SIZE) ||
    ((last_shifted_seqnr &&& 1) != (originator_seqno &&& 1) &&
      decide ((originator_seqno >>> 1) < (last_shifted_seqnr >>> 1))) ||
    decide ((originator_seqno >>> 1) > (last_shifted_seqnr >>> 1))

/-- Value of `last_shifted_seqnr` after the lookup loop: initialised to 0 (line 87), set from
the history when a slot matched (line 104). -/
def last_shifted_seqnr (PACKET_HISTORY_SIZE : Nat) (c : netflood_conn) (o : linkaddr_t) : Nat :=
  let i := history_lookup c.last_originators o
  if i < PACKET_HISTORY_SIZE then c.last_originator_seqnos.getD i 0 else 0

/-- Static `send` (lines 74-80): hands the buffer to `ipolite_send` with `c->queue_time` and
third argument 3; returns the logged call and the transport's answer. -/
def send (c : netflood_conn) (packetbuf : Packet) (ipolite_ok : Bool) : Event × Bool :=
  (Event.ipolite_send c.queue_time 3 packetbuf, ipolite_ok)

/-- History update of the relay branch (lines 136-146). -/
def relay_record (PACKET_HISTORY_SIZE : Nat) (c : netflood_conn) (i_packet_history : Nat)
    (hdr : netflood_hdr) : Option netflood_conn :=
  if i_packet_history ≥ PACKET_HISTORY_SIZE then
    (array_store PACKET_HISTORY_SIZE c.last_originators c.packet_history_i
        hdr.originator).bind fun los =>
    (array_store PACKET_HISTORY_SIZE c.last_originator_seqnos c.packet_history_i
        hdr.originator_seqno).map fun sqs =>
    INCREMENT_PACKET_HISTORY_I PACKET_HISTORY_SIZE
      { c with last_originators := los, last_originator_seqnos := sqs }
  else
    (array_store PACKET_HISTORY_SIZE c.last_originators i_packet_history
        hdr.originator).bind fun los =>
    (array_store PACKET_HISTORY_SIZE c.last_originator_seqnos i_packet_history
        hdr.originator_seqno).map fun sqs =>
    { c with last_originators := los, last_originator_seqnos := sqs }

/-- Function `recv_from_ipolite` (lines 82-155). `pkt` is the frame in the packet buffer,
`sender` the `from` argument, `queuebuf_ok` whether `queuebuf_new_from_packetbuf` returned a
buffer, `ipolite_ok` the answer of `ipolite_send` should the packet be relayed. -/
def recv_from_ipolite (PACKET_HISTORY_SIZE HOPS_MAX : Nat) (queuebuf_ok ipolite_ok : Bool)
    (s : State) (pkt : Packet) (sender : linkaddr_t) : RecvOutcome :=
  let c := s.c
  -- memcpy(&hdr, packetbuf_dataptr(), sizeof(struct netflood_hdr)); hops = hdr.hops;
  let hdr := pkt.hdr
  let hops := hdr.hops
  -- queuebuf = queuebuf_new_from_packetbuf();
  let queuebuf : Option Packet := if queuebuf_ok then some pkt else none
  -- packetbuf_hdrreduce(sizeof(struct netflood_hdr));
  let packetbuf := pkt.payload
  match c.u.recv with
  | none => { trace := [], state := some s }
  | some recv =>
    let i_packet_history := history_lookup c.last_originators hdr.originator
    let last := last_shifted_seqnr PACKET_HISTORY_SIZE c hdr.originator
    if is_new PACKET_HISTORY_SIZE i_packet_history last hdr.originator_seqno then
      let delivered := Event.recv sender hdr.originator hops packetbuf
      if (recv sender hdr.originator hops packetbuf).1 then
        match queuebuf with
        | some q =>
          -- queuebuf_to_packetbuf(queuebuf); memcpy(&hdr, packetbuf_dataptr(), ...);
          let hdr1 := q.hdr
          if hops < HOPS_MAX then
            -- hdr.hops++; memcpy(packetbuf_dataptr(), &hdr, ...); send(c);
            let hdr2 := { hdr1 with hops := (hdr1.hops + 1) % 256 }
            let sent := send c { hdr := hdr2, payload := q.payload } ipolite_ok
            { trace := [delivered, sent.1],
              state := (relay_record PACKET_HISTORY_SIZE c i_packet_history hdr2).map
                fun c1 => { s with c := c1 } }
          else { trace := [delivered], state := some s }
        | none => { trace := [delivered], state := some s }
      else { trace := [delivered], state := some s }
    else { trace := [], state := some s }

/-- Function `netflood2_send` (lines 193-239). `payload` is what the caller staged in the
packet buffer, `hdralloc_ok` whether `packetbuf_hdralloc` succeeded, `ipolite_ok` the answer
of `ipolite_send`. The pointer `hdr` (line 199) points into the packet buffer; `hdr_after` is
the header the buffer holds there when `ipolite_send` has returned, which line 220 reads. -/
def netflood2_send (PACKET_HISTORY_SIZE : Nat) (linkaddr_node_addr : linkaddr_t)
    (hdralloc_ok ipolite_ok : Bool) (hdr_after : netflood_hdr) (s : State)
    (payload : List Nat) : SendOutcome :=
  let c := s.c
  if hdralloc_ok then
    let shifted := shifted_seqno s.seqno
    let hdr : netflood_hdr :=
      { originator := linkaddr_node_addr, originator_seqno := shifted, hops := 0 }
    let call := Event.ipolite_send 0 4 { hdr := hdr, payload := payload }
    if ipolite_ok then
      let i_packet_history := history_lookup c.last_originators linkaddr_node_addr
      -- if an entry is found, overwrite that entry
      -- linkaddr_copy(&c->last_originators[i_packet_history], &hdr->originator);
      let found : Option netflood_conn :=
        if i_packet_history < PACKET_HISTORY_SIZE then
          (array_store PACKET_HISTORY_SIZE c.last_originators i_packet_history
              hdr_after.originator).bind fun los =>
          (array_store PACKET_HISTORY_SIZE c.last_originator_seqnos i_packet_history
              shifted).map fun sqs =>
          { c with last_originators := los, last_originator_seqnos := sqs }
        else some c
      -- entry is not found, write at the next location
      -- linkaddr_copy(&c->last_originators[c->packet_history_i], &linkaddr_node_addr);
      let written : Option netflood_conn :=
        found.bind fun c1 =>
          if i_packet_history ≥ PACKET_HISTORY_SIZE then
            (array_store PACKET_HISTORY_SIZE c1.last_originators c1.packet_history_i
                linkaddr_node_addr).bind fun los =>
            (array_store PACKET_HISTORY_SIZE c1.last_originator_seqnos c1.packet_history_i
                shifted).map fun sqs =>
            INCREMENT_PACKET_HISTORY_I PACKET_HISTORY_SIZE
              { c1 with last_originators := los, last_originator_seqnos := sqs }
          else some c1
      -- seqno++; return 1;
      { trace := [call],
        result := written.map fun c2 => ({ c := c2, seqno := (s.seqno + 1) % 256 }, 1) }
    else { trace := [call], result := some (s, 0) }
  else { trace := [], result := some (s, 0) }

/-- Function `netflood2_open` (lines 177-185) on the fields of the connection. The transport
binding set up by `ipolite_open(&c->c, channel, 2, &netflood)` lies outside the connection
fields kept here. -/
def netflood2_open (c : netflood_conn) (queue_time : Nat) (_channel : Nat)
    (u : netflood_callbacks) : netflood_conn :=
  { c with u := u, queue_time := queue_time, packet_history_i := 0 }

/-! ## Derived notions used to state the properties -/

/-- Sequence number the history holds for originator `o`: the one in the first slot whose
address equals `o`, if there is such a slot. -/
def history_get (PACKET_HISTORY_SIZE : Nat) (c : netflood_conn) (o : linkaddr_t) :
    Option Nat :=
  let i := history_lookup c.last_originators o
  if i < PACKET_HISTORY_SIZE then some (c.last_originator_seqnos.getD i 0) else none

/-- Verdict of lines 100-116 for a packet from `o` carrying `seq`: true when the packet is
passed on to the application. -/
def evaluates_new (PACKET_HISTORY_SIZE : Nat) (c : netflood_conn) (o : linkaddr_t)
    (seq : Nat) : Bool :=
  is_new PACKET_HISTORY_SIZE (history_lookup c.last_originators o)
    (last_shifted_seqnr PACKET_HISTORY_SIZE c o) seq

/-- Update rule of the history table in the words of the specification, relating the
connection `c` before recording `(O, S)` to the connection `c1` after it: when some slot holds
`O`, the first such slot becomes `(O, S)`, the cursor stays and all other slots stay; when no
slot holds `O`, the slot under the cursor becomes `(O, S)`, the cursor steps modulo the table
size and all other slots stay. -/
def history_updated (PACKET_HISTORY_SIZE : Nat) (c : netflood_conn) (O : linkaddr_t) (S : Nat)
    (c1 : netflood_conn) : Prop :=
  ((∃ j : Nat, c.last_originators[j]? = some O) →
    ∃ i : Nat, c.last_originators[i]? = some O ∧ (∀ j : Nat, j < i → c.last_originators[j]? ≠ some O) ∧
      c1.last_originators[i]? = some O ∧ c1.last_originator_seqnos[i]? = some S ∧
      c1.packet_history_i = c.packet_history_i ∧
      ∀ j : Nat, j ≠ i → c1.last_originators[j]? = c.last_originators[j]? ∧
        c1.last_originator_seqnos[j]? = c.last_originator_seqnos[j]?) ∧
  ((¬ ∃ j : Nat, c.last_originators[j]? = some O) →
    c1.last_originators[c.packet_history_i]? = some O ∧
    c1.last_originator_seqnos[c.packet_history_i]? = some S ∧
    c1.packet_history_i = (c.packet_history_i + 1) % PACKET_HISTORY_SIZE ∧
    ∀ j : Nat, j ≠ c.packet_history_i → c1.last_originators[j]? = c.last_originators[j]? ∧
      c1.last_originator_seqnos[j]? = c.last_originator_seqnos[j]?)

/-- How the compiler lays out `struct netflood_hdr`: the bytes of a `linkaddr_t` and the
padding bytes that may follow each member. `linkaddr_t` is declared outside this file. -/
structure hdr_layout where
  addr_bytes : linkaddr_t → List Nat
  pad_seqno : List Nat
  pad_originator : List Nat
  pad_hops : List Nat

/-- Bytes of a `struct netflood_hdr` as `memcpy` moves them between the struct and the packet
buffer: the members in declaration order (lines 52-54). -/
def hdr_bytes (L : hdr_layout) (h : netflood_hdr) : List Nat :=
  [h.originator_seqno] ++ L.pad_seqno ++ L.addr_bytes h.originator ++ L.pad_originator ++
    [h.hops] ++ L.pad_hops

/-- Bytes of a frame in the packet buffer: header bytes, then the payload. -/
def frame_bytes (L : hdr_layout) (p : Packet) : List Nat :=
  hdr_bytes L p.hdr ++ p.payload

/-- Header bytes in the order the specification gives for the wire format: originator
address, one byte of sequence number, one byte of hop count. -/
def spec_hdr_bytes (L : hdr_layout) (h : netflood_hdr) : List Nat :=
  L.addr_bytes h.originator ++ [h.originator_seqno] ++ [h.hops]

/-- Frames handed to `ipolite_send` in a trace, in call order. -/
def sent_frames : List Event → List Packet
  | [] => []
  | Event.ipolite_send _ _ pkt :: rest => pkt :: sent_frames rest
  | Event.recv _ _ _ _ :: rest => sent_frames rest

/-- Second argument (the interval) of the `ipolite_send` calls in a trace, in call order. -/
def send_intervals : List Event → List Nat
  | [] => []
  | Event.ipolite_send interval _ _ :: rest => interval :: send_intervals rest
  | Event.recv _ _ _ _ :: rest => send_intervals rest

/-- One entry into the module on an open connection: a `netflood2_send` or a reception, with
what the outside world answers during it. -/
inductive Op where
  | send (hdralloc_ok ipolite_ok : Bool) (hdr_after : netflood_hdr) (payload : List Nat)
  | recv (queuebuf_ok ipolite_ok : Bool) (pkt : Packet) (sender : linkaddr_t)

/-- State after one entry; `none` after a memory fault. -/
def step (PACKET_HISTORY_SIZE HOPS_MAX : Nat) (linkaddr_node_addr : linkaddr_t) (s : State) :
    Op → Option State
  | Op.send hdralloc_ok ipolite_ok hdr_after payload =>
    (netflood2_send PACKET_HISTORY_SIZE linkaddr_node_addr hdralloc_ok ipolite_ok hdr_after s
      payload).result.map fun r => r.1
  | Op.recv queuebuf_ok ipolite_ok pkt sender =>
    (recv_from_ipolite PACKET_HISTORY_SIZE HOPS_MAX queuebuf_ok ipolite_ok s pkt sender).state

/-- State after a sequence of entries; `none` as soon as one of them faults. -/
def run (PACKET_HISTORY_SIZE HOPS_MAX : Nat) (linkaddr_node_addr : linkaddr_t) :
    State → List Op → Option State
  | s, [] => some s
  | s, op :: rest =>
    (step PACKET_HISTORY_SIZE HOPS_MAX linkaddr_node_addr s op).bind fun s1 =>
      run PACKET_HISTORY_SIZE HOPS_MAX linkaddr_node_addr s1 rest

/-! ## Sample data -/

/-- A callback that accepts every packet for relay and scribbles over the buffer. -/
def cb_accept : recv_callback := fun _ _ _ _ => (true, [0])

/-- A callback that declines every packet. -/
def cb_decline : recv_callback := fun _ _ _ _ => (false, [])

/-- A connection with two history slots, both holding address 0 and sequence 0. -/
def conn0 (cb : Option recv_callback) : netflood_conn :=
  { queue_time := 7, u := { recv := cb }, last_originators := [0, 0],
    last_originator_seqnos := [0, 0], packet_history_i := 0 }

/-- A connection whose history holds originator 5 with sequence `seq` in slot 1. -/
def conn1 (cb : Option recv_callback) (seq : Nat) : netflood_conn :=
  { queue_time := 7, u := { recv := cb }, last_originators := [9, 5],
    last_originator_seqnos := [4, seq], packet_history_i := 0 }

/-- The frame `(originator 5, sequence 2, hops)` with payload `[1, 2]`. -/
def pkt5 (hops : Nat) : Packet :=
  { hdr := { originator_seqno := 2, originator := 5, hops := hops }, payload := [1, 2] }

/-- History arrays and cursor of a state. -/
def State.history (s : State) : List linkaddr_t × List Nat × Nat :=
  (s.c.last_originators, s.c.last_originator_seqnos, s.c.packet_history_i)

/-- A connection whose two slots hold originators 11 and 12, cursor on slot 0. -/
def conn2 (cb : Option recv_callback) : netflood_conn :=
  { queue_time := 7, u := { recv := cb }, last_originators := [11, 12],
    last_originator_seqnos := [6, 8], packet_history_i := 0 }

/-- Header that `netflood2_send` writes for node `node` at counter value `seqno`: what the
packet buffer still holds under `hdr` when the transport left the buffer alone. -/
def hdr_kept (node : linkaddr_t) (seqno : Nat) : netflood_hdr :=
  { originator_seqno := shifted_seqno seqno, originator := node, hops := 0 }

/-- Other bytes under `hdr`: the packet buffer was reused while `ipolite_send` ran. -/
def hdr_reused : netflood_hdr :=
  { originator_seqno := 238, originator := 61166, hops := 238 }

/-- Layout with two-byte addresses, low byte first, and no padding. -/
def layout2 : hdr_layout :=
  { addr_bytes := fun a => [a % 256, a / 256 % 256], pad_seqno := [], pad_originator := [],
    pad_hops := [] }

/-! ## Arithmetic of the sequence encoding and the freshness test -/

theorem shifted_seqno_eq (v : Nat) :
    shifted_seqno v = if v > 127 then (2 * v % 256 + 1) % 256 else 2 * v % 256 := by
  simp [shifted_seqno, Nat.shiftLeft_eq, Nat.mul_comm]

theorem is_new_iff (N i l x : Nat) :
    is_new N i l x = true ↔ (N ≤ i ∨ (l % 2 ≠ x % 2 ∧ x / 2 < l / 2) ∨ l / 2 < x / 2) := by
  simp [is_new, Nat.and_one_is_mod, Nat.shiftRight_eq_div_pow, bne_iff_ne, or_assoc]

theorem is_new_succ (N i v : Nat) (hv : v < 256) :
    is_new N i (shifted_seqno v) (shifted_seqno ((v + 1) % 256)) = true := by
  rw [is_new_iff, shifted_seqno_eq, shifted_seqno_eq]
  split <;> split <;> omega

theorem is_new_same (N i S : Nat) (hi : i < N) : is_new N i S S = false := by
  rw [← Bool.not_eq_true, is_new_iff]; omega


theorem history_lookup_le (l : List linkaddr_t) (o : linkaddr_t) :
    history_lookup l o ≤ l.length := by
  induction l with
  | nil => simp [history_lookup]
  | cons a rest ih =>
    simp only [history_lookup, List.length_cons]
    split <;> omega

theorem history_lookup_set_self (l : List linkaddr_t) (o : linkaddr_t)
    (h : history_lookup l o < l.length) : l.set (history_lookup l o) o = l := by
  induction l with
  | nil => simp at h
  | cons a rest ih =>
    simp only [history_lookup] at h ⊢
    split
    · next hao => simp [hao]
    · next hao =>
      rw [if_neg hao] at h
      simp only [List.length_cons, Nat.add_lt_add_iff_right] at h
      simp [List.set, ih h]

theorem history_lookup_set_absent (l : List linkaddr_t) (o : linkaddr_t) (k : Nat)
    (h : history_lookup l o = l.length) (hk : k < l.length) :
    history_lookup (l.set k o) o = k := by
  induction l generalizing k with
  | nil => simp at hk
  | cons a rest ih =>
    simp only [history_lookup] at h
    split at h
    · simp at h
    · next hao =>
      simp only [List.length_cons, Nat.add_right_cancel_iff] at h
      cases k with
      | zero => simp [history_lookup]
      | succ k =>
        simp only [List.length_cons, Nat.add_lt_add_iff_right] at hk
        simp [history_lookup, hao, ih k h hk]

theorem getD_set_self (l : List Nat) (i v : Nat) (h : i < l.length) :
    (l.set i v).getD i 0 = v := by
  simp [List.getD, h]


theorem history_get_some (N : Nat) (c : netflood_conn) (o : linkaddr_t) (L : Nat)
    (h : history_get N c o = some L) :
    history_lookup c.last_originators o < N ∧ last_shifted_seqnr N c o = L := by
  unfold history_get at h
  unfold last_shifted_seqnr
  simp only at h ⊢
  split at h
  · next hi => rw [if_pos hi]; exact ⟨hi, Option.some.inj h⟩
  · simp at h

theorem history_get_INCREMENT (N : Nat) (c : netflood_conn) (o : linkaddr_t) :
    history_get N (INCREMENT_PACKET_HISTORY_I N c) o = history_get N c o := by
  unfold INCREMENT_PACKET_HISTORY_I history_get
  simp only
  split <;> rfl

theorem INCREMENT_u (N : Nat) (c : netflood_conn) :
    (INCREMENT_PACKET_HISTORY_I N c).u = c.u := by
  unfold INCREMENT_PACKET_HISTORY_I
  simp only
  split <;> rfl

theorem relay_record_absent (N : Nat) (c : netflood_conn) (i : Nat) (hdr : netflood_hdr)
    (hi : i ≥ N) (hk : c.packet_history_i < N) :
    relay_record N c i hdr = some (INCREMENT_PACKET_HISTORY_I N
      { c with last_originators := c.last_originators.set c.packet_history_i hdr.originator,
               last_originator_seqnos :=
                 c.last_originator_seqnos.set c.packet_history_i hdr.originator_seqno }) := by
  simp only [relay_record, if_pos hi, array_store, if_pos hk, Option.some_bind, Option.map_some']

theorem relay_record_present (N : Nat) (c : netflood_conn) (i : Nat) (hdr : netflood_hdr)
    (hi : i < N) :
    relay_record N c i hdr = some
      { c with last_originators := c.last_originators.set i hdr.originator,
               last_originator_seqnos := c.last_originator_seqnos.set i hdr.originator_seqno } := by
  have hn : ¬ i ≥ N := by omega
  simp only [relay_record, if_neg hn, array_store, if_pos hi, Option.some_bind, Option.map_some']

/-- Recording `(o, seq)` through the loop index of `o` succeeds under a valid cursor and makes
the lookup for `o` yield `seq`. -/
theorem relay_record_get (N : Nat) (c : netflood_conn) (hdr : netflood_hdr)
    (hwf : c.wf N) (hk : c.packet_history_i < N) :
    ∃ c1, relay_record N c (history_lookup c.last_originators hdr.originator) hdr = some c1 ∧
      history_get N c1 hdr.originator = some hdr.originator_seqno ∧ c1.u = c.u := by
  obtain ⟨hlo, hls⟩ := hwf
  have hle := history_lookup_le c.last_originators hdr.originator
  by_cases hi : history_lookup c.last_originators hdr.originator ≥ N
  · have habs : history_lookup c.last_originators hdr.originator = c.last_originators.length := by
      omega
    rw [relay_record_absent N c _ hdr hi hk]
    refine ⟨_, rfl, ?_, ?_⟩
    · rw [history_get_INCREMENT]
      unfold history_get
      simp only
      rw [history_lookup_set_absent _ _ _ habs (by omega), if_pos hk,
        getD_set_self _ _ _ (by omega)]
    · rw [INCREMENT_u]
  · have hlt : history_lookup c.last_originators hdr.originator < N := by omega
    rw [relay_record_present N c _ hdr hlt]
    refine ⟨_, rfl, ?_, rfl⟩
    unfold history_get
    simp only
    rw [history_lookup_set_self _ _ (by omega), if_pos hlt, getD_set_self _ _ _ (by omega)]

/-! ## The branches of `recv_from_ipolite` -/

/-- A packet that fails the test of lines 113-116 causes no call and no state change. -/
theorem recv_stale (N HM : Nat) (qok iok : Bool) (s : State) (cb : recv_callback)
    (pkt : Packet) (sender : linkaddr_t) (hcb : s.c.u.recv = some cb)
    (hold : evaluates_new N s.c pkt.hdr.originator pkt.hdr.originator_seqno = false) :
    recv_from_ipolite N HM qok iok s pkt sender = { trace := [], state := some s } := by
  unfold evaluates_new at hold
  simp [recv_from_ipolite, hcb, hold]

/-- A new packet whose callback returns false is delivered and nothing else happens. -/
theorem recv_declined (N HM : Nat) (qok iok : Bool) (s : State) (cb : recv_callback)
    (pkt : Packet) (sender : linkaddr_t) (hcb : s.c.u.recv = some cb)
    (hnew : evaluates_new N s.c pkt.hdr.originator pkt.hdr.originator_seqno = true)
    (hdec : (cb sender pkt.hdr.originator pkt.hdr.hops pkt.payload).1 = false) :
    recv_from_ipolite N HM qok iok s pkt sender =
      { trace := [Event.recv sender pkt.hdr.originator pkt.hdr.hops pkt.payload],
        state := some s } := by
  unfold evaluates_new at hnew
  simp [recv_from_ipolite, hcb, hnew, hdec]

/-- A new packet at or above the hop limit is delivered and nothing else happens. -/
theorem recv_ceiling (N HM : Nat) (qok iok : Bool) (s : State) (cb : recv_callback)
    (pkt : Packet) (sender : linkaddr_t) (hcb : s.c.u.recv = some cb)
    (hnew : evaluates_new N s.c pkt.hdr.originator pkt.hdr.originator_seqno = true)
    (hh : HM ≤ pkt.hdr.hops) :
    recv_from_ipolite N HM qok iok s pkt sender =
      { trace := [Event.recv sender pkt.hdr.originator pkt.hdr.hops pkt.payload],
        state := some s } := by
  unfold evaluates_new at hnew
  have hn : ¬ pkt.hdr.hops < HM := by omega
  cases hr : (cb sender pkt.hdr.originator pkt.hdr.hops pkt.payload).1 <;>
    cases qok <;> simp [recv_from_ipolite, hcb, hnew, hr, hn]

/-- A new packet below the hop limit, accepted by the callback and with a snapshot, is
delivered, sent on with the hop count stepped, and recorded. -/
theorem recv_relayed (N HM : Nat) (iok : Bool) (s : State) (cb : recv_callback)
    (pkt : Packet) (sender : linkaddr_t) (hcb : s.c.u.recv = some cb)
    (hnew : evaluates_new N s.c pkt.hdr.originator pkt.hdr.originator_seqno = true)
    (hrel : (cb sender pkt.hdr.originator pkt.hdr.hops pkt.payload).1 = true)
    (hh : pkt.hdr.hops < HM) :
    recv_from_ipolite N HM true iok s pkt sender =
      { trace := [Event.recv sender pkt.hdr.originator pkt.hdr.hops pkt.payload,
          Event.ipolite_send s.c.queue_time 3
            { hdr := { pkt.hdr with hops := (pkt.hdr.hops + 1) % 256 },
              payload := pkt.payload }],
        state := (relay_record N s.c (history_lookup s.c.last_originators pkt.hdr.originator)
          { pkt.hdr with hops := (pkt.hdr.hops + 1) % 256 }).map
            fun c1 => { s with c := c1 } } := by
  unfold evaluates_new at hnew
  simp [recv_from_ipolite, hcb, hnew, hrel, hh, send]

/-- With header space reserved and the transport accepting, `netflood2_send` makes one
`ipolite_send` call and records like the relay branch does, with the address read from the
packet buffer when its own address is already in the table and its own address otherwise. -/
theorem netflood2_send_accepted (N : Nat) (node : linkaddr_t) (hdr_after : netflood_hdr)
    (s : State) (payload : List Nat) :
    netflood2_send N node true true hdr_after s payload =
      { trace := [Event.ipolite_send 0 4
          { hdr := { originator_seqno := shifted_seqno s.seqno, originator := node, hops := 0 },
            payload := payload }],
        result := (relay_record N s.c (history_lookup s.c.last_originators node)
          { originator_seqno := shifted_seqno s.seqno,
            originator := if history_lookup s.c.last_originators node < N
              then hdr_after.originator else node,
            hops := 0 }).map
            fun c2 => ({ c := c2, seqno := (s.seqno + 1) % 256 }, 1) } := by
  by_cases hi : history_lookup s.c.last_originators node < N
  · have hn : ¬ history_lookup s.c.last_originators node ≥ N := by omega
    have hn2 : ¬ N ≤ history_lookup s.c.last_originators node := by omega
    simp [netflood2_send, relay_record, array_store, hi, hn2]
  · have hn : history_lookup s.c.last_originators node ≥ N := by omega
    simp only [netflood2_send, relay_record, if_true, if_neg hi, if_pos hn, Option.some_bind]

/-- The address an accepted `netflood2_send` records is the node's own when that address is
not yet in the table or the packet buffer still holds it under `hdr`. -/
theorem recorded_address_own (N : Nat) (c : netflood_conn) (node : linkaddr_t)
    (hdr_after : netflood_hdr)
    (hkept : history_get N c node = none ∨ hdr_after.originator = node) :
    (if history_lookup c.last_originators node < N then hdr_after.originator else node)
      = node := by
  split
  · next hi =>
    rcases hkept with h | h
    · unfold history_get at h
      simp only [if_pos hi] at h
      simp at h
    · exact h
  · rfl

theorem evaluates_new_of_get (N : Nat) (c : netflood_conn) (o : linkaddr_t) (L x : Nat)
    (h : history_get N c o = some L) :
    evaluates_new N c o x = is_new N (history_lookup c.last_originators o) L x := by
  unfold evaluates_new
  rw [(history_get_some N c o L h).2]

/-! ## Properties -/

/-- C1. Duplicate suppression: with a receive callback registered, a packet from `O` whose
sequence number `S` is the one the history holds for `O` causes no callback call and no
transport send, and leaves the whole state (history arrays, cursor, `seqno`) as it was. -/
theorem duplicate_suppressed (PACKET_HISTORY_SIZE HOPS_MAX : Nat) (queuebuf_ok ipolite_ok : Bool)
    (s : State) (cb : recv_callback) (O : linkaddr_t) (S hops : Nat) (payload : List Nat)
    (sender : linkaddr_t) (hcb : s.c.u.recv = some cb)
    (hget : history_get PACKET_HISTORY_SIZE s.c O = some S) :
    (recv_from_ipolite PACKET_HISTORY_SIZE HOPS_MAX queuebuf_ok ipolite_ok s
        { hdr := { originator_seqno := S, originator := O, hops := hops }, payload := payload }
        sender).trace = [] ∧
    (recv_from_ipolite PACKET_HISTORY_SIZE HOPS_MAX queuebuf_ok ipolite_ok s
        { hdr := { originator_seqno := S, originator := O, hops := hops }, payload := payload }
        sender).state = some s := by
  have hold : evaluates_new PACKET_HISTORY_SIZE s.c O S = false := by
    rw [evaluates_new_of_get _ _ _ _ _ hget]
    exact is_new_same _ _ _ (history_get_some _ _ _ _ hget).1
  rw [recv_stale PACKET_HISTORY_SIZE HOPS_MAX queuebuf_ok ipolite_ok s cb _ sender hcb hold]
  exact ⟨rfl, rfl⟩

/-- Instance of C1: slot 1 holds `(5, 2)` and `(5, 2)` arrives. -/
theorem duplicate_suppressed_witness :
    history_get 2 (conn1 (some cb_accept) 2) 5 = some 2 ∧
    (recv_from_ipolite 2 16 true true { c := conn1 (some cb_accept) 2, seqno := 3 }
        { hdr := { originator_seqno := 2, originator := 5, hops := 0 }, payload := [1, 2] }
        8).trace = [] :=
  ⟨by decide, (duplicate_suppressed 2 16 true true { c := conn1 (some cb_accept) 2, seqno := 3 }
    cb_accept 5 2 0 [1, 2] 8 rfl (by decide)).1⟩

/-- C2. Wraparound freshness: when the history holds `shifted_seqno v` for an originator, a
packet from it carrying `shifted_seqno ((v + 1) % 256)` passes the test of lines 113-116 and
is handed to the registered callback. In particular counter 255 is sent as 255 (ordinal 127,
low bit 1), counter 0 as 0, and 0 after 255 is new. -/
theorem wraparound_fresh (PACKET_HISTORY_SIZE HOPS_MAX : Nat) (queuebuf_ok ipolite_ok : Bool)
    (s : State) (cb : recv_callback) (O : linkaddr_t) (v hops : Nat) (payload : List Nat)
    (sender : linkaddr_t) (hv : v < 256) (hcb : s.c.u.recv = some cb)
    (hget : history_get PACKET_HISTORY_SIZE s.c O = some (shifted_seqno v)) :
    evaluates_new PACKET_HISTORY_SIZE s.c O (shifted_seqno ((v + 1) % 256)) = true ∧
    (recv_from_ipolite PACKET_HISTORY_SIZE HOPS_MAX queuebuf_ok ipolite_ok s
        { hdr := { originator_seqno := shifted_seqno ((v + 1) % 256), originator := O,
                   hops := hops }, payload := payload }
        sender).trace.head? = some (Event.recv sender O hops payload) ∧
    shifted_seqno 255 = 255 ∧ 255 >>> 1 = 127 ∧ 255 &&& 1 = 1 ∧ shifted_seqno 0 = 0 ∧
    (history_get PACKET_HISTORY_SIZE s.c O = some 255 →
      evaluates_new PACKET_HISTORY_SIZE s.c O 0 = true) := by
  have hnew : evaluates_new PACKET_HISTORY_SIZE s.c O (shifted_seqno ((v + 1) % 256)) = true := by
    rw [evaluates_new_of_get _ _ _ _ _ hget]
    exact is_new_succ _ _ _ hv
  refine ⟨hnew, ?_, by decide, by decide, by decide, by decide, ?_⟩
  · unfold evaluates_new at hnew
    cases hr : (cb sender O hops payload).1 <;> cases queuebuf_ok <;>
      by_cases hh : hops < HOPS_MAX <;>
      simp [recv_from_ipolite, hcb, hnew, hr, hh]
  · intro h255
    rw [evaluates_new_of_get _ _ _ _ _ h255]
    have := is_new_succ PACKET_HISTORY_SIZE (history_lookup s.c.last_originators O) 255
      (by decide)
    simpa [shifted_seqno] using this

/-- Instance of C2: the history holds 255 for originator 5 and 0 arrives. -/
theorem wraparound_fresh_witness :
    history_get 2 (conn1 (some cb_accept) 255) 5 = some (shifted_seqno 255) ∧
    evaluates_new 2 (conn1 (some cb_accept) 255) 5 (shifted_seqno ((255 + 1) % 256)) = true :=
  ⟨by decide, (wraparound_fresh 2 16 true true { c := conn1 (some cb_accept) 255, seqno := 3 }
    cb_accept 5 255 0 [1, 2] 8 (by decide) rfl (by decide)).1⟩

/-- When its own address is not yet in the table, or the packet buffer still holds the header
under `hdr` after `ipolite_send`, an accepted `netflood2_send` from a well-formed connection
with the cursor inside the table returns 1, leaves `shifted_seqno v` in the history for the
node's own address and steps `seqno` to `(v + 1) % 256`. -/
theorem send_records_own_seqno_when_kept (PACKET_HISTORY_SIZE : Nat)
    (linkaddr_node_addr : linkaddr_t) (hdr_after : netflood_hdr) (s : State)
    (payload : List Nat) (hwf : s.c.wf PACKET_HISTORY_SIZE)
    (hk : s.c.packet_history_i < PACKET_HISTORY_SIZE)
    (hkept : history_get PACKET_HISTORY_SIZE s.c linkaddr_node_addr = none ∨
      hdr_after.originator = linkaddr_node_addr) :
    ∃ s1, (netflood2_send PACKET_HISTORY_SIZE linkaddr_node_addr true true hdr_after s
        payload).result = some (s1, 1) ∧
      history_get PACKET_HISTORY_SIZE s1.c linkaddr_node_addr = some (shifted_seqno s.seqno) ∧
      s1.seqno = (s.seqno + 1) % 256 := by
  obtain ⟨c1, hrec, hget, _⟩ := relay_record_get PACKET_HISTORY_SIZE s.c
    { originator_seqno := shifted_seqno s.seqno, originator := linkaddr_node_addr, hops := 0 }
    hwf hk
  rw [netflood2_send_accepted, recorded_address_own _ _ _ _ hkept]
  simp only at hrec hget
  exact ⟨{ c := c1, seqno := (s.seqno + 1) % 256 }, by rw [hrec]; rfl, hget, rfl⟩

/-- C3, evaluated where the code departs from it. Node 5 is already in slot 1 of a two-slot
table with cursor 0 and sends with counter 3; header space is reserved, the transport accepts,
and the packet buffer was reused while `ipolite_send` ran. `netflood2_send` returns 1 and
steps `seqno` to 4, but line 220 copies the address now in the buffer into slot 1, so the
lookup for node 5 finds nothing, where C3 says it yields `shifted_seqno 3 = 6`. With the buffer
left alone the lookup does yield 6. -/
theorem send_own_address_lost :
    (conn1 none 2).wf 2 ∧ (conn1 none 2).packet_history_i < 2 ∧
    history_get 2 (conn1 none 2) 5 = some 2 ∧
    (netflood2_send 2 5 true true hdr_reused { c := conn1 none 2, seqno := 3 }
      [1, 2]).result.map (fun r => (r.1.history, r.1.seqno, r.2))
      = some (([9, 61166], [4, 6], 0), 4, 1) ∧
    (netflood2_send 2 5 true true hdr_reused { c := conn1 none 2, seqno := 3 }
      [1, 2]).result.map (fun r => history_get 2 r.1.c 5) = some none ∧
    shifted_seqno 3 = 6 ∧
    (netflood2_send 2 5 true true (hdr_kept 5 3) { c := conn1 none 2, seqno := 3 }
      [1, 2]).result.map (fun r => history_get 2 r.1.c 5) = some (some 6) := by
  decide

/-- C4. Relay decision and content: for a new packet `(O, S, h)` with payload `P`, when the
callback returns true, the snapshot was taken and `h < HOPS_MAX` (with `HOPS_MAX` fitting the
one-byte hop field), the calls made are the delivery followed by exactly one `ipolite_send`,
and the frame handed over is the snapshot with `O`, `S` and `P` as received and hop count
`h + 1`. -/
theorem relay_sends_snapshot (PACKET_HISTORY_SIZE HOPS_MAX : Nat) (ipolite_ok : Bool)
    (s : State) (cb : recv_callback) (O : linkaddr_t) (S h : Nat) (P : List Nat)
    (sender : linkaddr_t) (hcb : s.c.u.recv = some cb)
    (hnew : evaluates_new PACKET_HISTORY_SIZE s.c O S = true)
    (hrel : (cb sender O h P).1 = true) (hmax : HOPS_MAX ≤ 255) (hh : h < HOPS_MAX) :
    (recv_from_ipolite PACKET_HISTORY_SIZE HOPS_MAX true ipolite_ok s
        { hdr := { originator_seqno := S, originator := O, hops := h }, payload := P }
        sender).trace =
      [Event.recv sender O h P,
       Event.ipolite_send s.c.queue_time 3
         { hdr := { originator_seqno := S, originator := O, hops := h + 1 }, payload := P }] := by
  rw [recv_relayed PACKET_HISTORY_SIZE HOPS_MAX ipolite_ok s cb _ sender hcb hnew hrel hh]
  have h256 : (h + 1) % 256 = h + 1 := Nat.mod_eq_of_lt (by omega)
  simp only [h256]

/-- Instance of C4: `(5, 2, 0)` is relayed with hop count 1. -/
theorem relay_sends_snapshot_witness :
    evaluates_new 2 (conn0 (some cb_accept)) 5 2 = true ∧
    (recv_from_ipolite 2 16 true true { c := conn0 (some cb_accept), seqno := 3 }
        { hdr := { originator_seqno := 2, originator := 5, hops := 0 }, payload := [1, 2] }
        8).trace =
      [Event.recv 8 5 0 [1, 2],
       Event.ipolite_send 7 3
         { hdr := { originator_seqno := 2, originator := 5, hops := 0 + 1 },
           payload := [1, 2] }] :=
  ⟨by decide, relay_sends_snapshot 2 16 true { c := conn0 (some cb_accept), seqno := 3 }
    cb_accept 5 2 0 [1, 2] 8 rfl (by decide) rfl (by decide) (by decide)⟩

/-- C5. Relay records the received sequence: from a well-formed connection with the cursor
inside the table, after a new packet `(O, S, h)` is relayed (callback true, snapshot taken,
`h < HOPS_MAX`) the history holds exactly `S` for `O`, and `seqno` is unchanged. -/
theorem relay_records_received_seqno (PACKET_HISTORY_SIZE HOPS_MAX : Nat) (ipolite_ok : Bool)
    (s : State) (cb : recv_callback) (O : linkaddr_t) (S h : Nat) (P : List Nat)
    (sender : linkaddr_t) (hwf : s.c.wf PACKET_HISTORY_SIZE)
    (hk : s.c.packet_history_i < PACKET_HISTORY_SIZE) (hcb : s.c.u.recv = some cb)
    (hnew : evaluates_new PACKET_HISTORY_SIZE s.c O S = true)
    (hrel : (cb sender O h P).1 = true) (hh : h < HOPS_MAX) :
    ∃ s1, (recv_from_ipolite PACKET_HISTORY_SIZE HOPS_MAX true ipolite_ok s
        { hdr := { originator_seqno := S, originator := O, hops := h }, payload := P }
        sender).state = some s1 ∧
      history_get PACKET_HISTORY_SIZE s1.c O = some S ∧ s1.seqno = s.seqno := by
  rw [recv_relayed PACKET_HISTORY_SIZE HOPS_MAX ipolite_ok s cb _ sender hcb hnew hrel hh]
  obtain ⟨c1, hrec, hget, _⟩ := relay_record_get PACKET_HISTORY_SIZE s.c
    { originator_seqno := S, originator := O, hops := (h + 1) % 256 } hwf hk
  simp only at hrec hget ⊢
  exact ⟨{ s with c := c1 }, by rw [hrec]; rfl, hget, rfl⟩

/-- Instance of C5: the entry `(5, 2)` is replaced by `(5, 4)`. -/
theorem relay_records_received_seqno_witness :
    (conn1 (some cb_accept) 2).wf 2 ∧
    evaluates_new 2 (conn1 (some cb_accept) 2) 5 4 = true ∧
    ∃ s1, (recv_from_ipolite 2 16 true false { c := conn1 (some cb_accept) 2, seqno := 3 }
        { hdr := { originator_seqno := 4, originator := 5, hops := 1 }, payload := [1, 2] }
        8).state = some s1 ∧
      history_get 2 s1.c 5 = some 4 ∧ s1.seqno = 3 :=
  ⟨by decide, by decide,
    relay_records_received_seqno 2 16 false { c := conn1 (some cb_accept) 2, seqno := 3 }
      cb_accept 5 4 1 [1, 2] 8 (by decide) (by decide) rfl (by decide) rfl (by decide)⟩

/-- C6. Hop ceiling: a new packet received with hop count at or above `HOPS_MAX`, with a
receive callback registered, is handed to the callback exactly once with that hop count, and
no `ipolite_send` is made, whatever the callback returns and whether or not a snapshot was
taken. -/
theorem hop_ceiling_no_relay (PACKET_HISTORY_SIZE HOPS_MAX : Nat)
    (queuebuf_ok ipolite_ok : Bool) (s : State) (cb : recv_callback) (O : linkaddr_t)
    (S h : Nat) (P : List Nat) (sender : linkaddr_t) (hcb : s.c.u.recv = some cb)
    (hnew : evaluates_new PACKET_HISTORY_SIZE s.c O S = true) (hh : HOPS_MAX ≤ h) :
    (recv_from_ipolite PACKET_HISTORY_SIZE HOPS_MAX queuebuf_ok ipolite_ok s
        { hdr := { originator_seqno := S, originator := O, hops := h }, payload := P }
        sender).trace = [Event.recv sender O h P] := by
  rw [recv_ceiling PACKET_HISTORY_SIZE HOPS_MAX queuebuf_ok ipolite_ok s cb _ sender hcb hnew hh]

/-- Instance of C6: hop count 16 with `HOPS_MAX = 16`. -/
theorem hop_ceiling_no_relay_witness :
    evaluates_new 2 (conn0 (some cb_accept)) 5 2 = true ∧ (cb_accept 8 5 16 [1, 2]).1 = true ∧
    (recv_from_ipolite 2 16 true true { c := conn0 (some cb_accept), seqno := 3 }
        { hdr := { originator_seqno := 2, originator := 5, hops := 16 }, payload := [1, 2] }
        8).trace = [Event.recv 8 5 16 [1, 2]] :=
  ⟨by decide, rfl, hop_ceiling_no_relay 2 16 true true
    { c := conn0 (some cb_accept), seqno := 3 } cb_accept 5 2 16 [1, 2] 8 rfl (by decide)
    (by decide)⟩

/-- C7. Send failure is atomic: when header space cannot be reserved `netflood2_send` returns
0 without calling `ipolite_send`; when header space is reserved and the transport rejects the
packet it returns 0; in both cases the state (history arrays, cursor, `seqno`) is the one
before the call. -/
theorem send_failure_atomic (PACKET_HISTORY_SIZE : Nat) (linkaddr_node_addr : linkaddr_t)
    (ipolite_ok : Bool) (hdr_after : netflood_hdr) (s : State) (payload : List Nat) :
    (netflood2_send PACKET_HISTORY_SIZE linkaddr_node_addr false ipolite_ok hdr_after s
        payload).trace = [] ∧
    (netflood2_send PACKET_HISTORY_SIZE linkaddr_node_addr false ipolite_ok hdr_after s
        payload).result = some (s, 0) ∧
    (netflood2_send PACKET_HISTORY_SIZE linkaddr_node_addr true false hdr_after s
        payload).result = some (s, 0) := by
  simp [netflood2_send]

/-- C8, as stated, fails: with two slots, empty-looking history and cursor 0, a new packet
`(5, 2, 0)` whose callback asks for relay is recorded in slot 0 and the cursor moves to 1 even
though the transport rejects the relay send. -/
theorem relay_rejected_still_recorded :
    evaluates_new 2 (conn0 (some cb_accept)) 5 2 = true ∧
    (cb_accept 8 5 0 [1, 2]).1 = true ∧ 0 < 16 ∧
    (State.mk (conn0 (some cb_accept)) 3).history = ([0, 0], [0, 0], 0) ∧
    (recv_from_ipolite 2 16 true false { c := conn0 (some cb_accept), seqno := 3 } (pkt5 0)
        8).state.map State.history = some ([5, 0], [2, 0], 1) := by
  decide

/-- C8, amended. When the transport rejects the relay send of a new packet `(O, S, h)`
(callback true, snapshot taken, `h < HOPS_MAX`, cursor inside the table), the history is
updated all the same: the state after the reception is the one reached when the transport
accepts, and the history then holds `S` for `O`. -/
theorem relay_rejected_same_as_accepted (PACKET_HISTORY_SIZE HOPS_MAX : Nat)
    (s : State) (cb : recv_callback) (O : linkaddr_t) (S h : Nat) (P : List Nat)
    (sender : linkaddr_t) (hwf : s.c.wf PACKET_HISTORY_SIZE)
    (hk : s.c.packet_history_i < PACKET_HISTORY_SIZE) (hcb : s.c.u.recv = some cb)
    (hnew : evaluates_new PACKET_HISTORY_SIZE s.c O S = true)
    (hrel : (cb sender O h P).1 = true) (hh : h < HOPS_MAX) :
    ∃ s1, (recv_from_ipolite PACKET_HISTORY_SIZE HOPS_MAX true false s
        { hdr := { originator_seqno := S, originator := O, hops := h }, payload := P }
        sender).state = some s1 ∧
      (recv_from_ipolite PACKET_HISTORY_SIZE HOPS_MAX true true s
        { hdr := { originator_seqno := S, originator := O, hops := h }, payload := P }
        sender).state = some s1 ∧
      history_get PACKET_HISTORY_SIZE s1.c O = some S := by
  rw [recv_relayed PACKET_HISTORY_SIZE HOPS_MAX false s cb _ sender hcb hnew hrel hh,
    recv_relayed PACKET_HISTORY_SIZE HOPS_MAX true s cb _ sender hcb hnew hrel hh]
  obtain ⟨c1, hrec, hget, _⟩ := relay_record_get PACKET_HISTORY_SIZE s.c
    { originator_seqno := S, originator := O, hops := (h + 1) % 256 } hwf hk
  simp only at hrec hget ⊢
  exact ⟨{ s with c := c1 }, by rw [hrec]; rfl, by rw [hrec]; rfl, hget⟩

/-- Instance of the amended C8 on the two-slot table. -/
theorem relay_rejected_same_as_accepted_witness :
    (conn0 (some cb_accept)).wf 2 ∧ evaluates_new 2 (conn0 (some cb_accept)) 5 2 = true ∧
    ∃ s1, (recv_from_ipolite 2 16 true false { c := conn0 (some cb_accept), seqno := 3 }
        { hdr := { originator_seqno := 2, originator := 5, hops := 0 }, payload := [1, 2] }
        8).state = some s1 ∧
      (recv_from_ipolite 2 16 true true { c := conn0 (some cb_accept), seqno := 3 }
        { hdr := { originator_seqno := 2, originator := 5, hops := 0 }, payload := [1, 2] }
        8).state = some s1 ∧
      history_get 2 s1.c 5 = some 2 :=
  ⟨by decide, by decide,
    relay_rejected_same_as_accepted 2 16 { c := conn0 (some cb_accept), seqno := 3 }
      cb_accept 5 2 0 [1, 2] 8 (by decide) (by decide) rfl (by decide) rfl (by decide)⟩

/-- C9, as stated, fails: a packet `(5, 2)` that is delivered to a callback declining relay
leaves the history as it was, and the same packet received next is delivered again. -/
theorem declined_packet_redelivered :
    (recv_from_ipolite 2 16 true true { c := conn0 (some cb_decline), seqno := 3 } (pkt5 0)
        8).trace = [Event.recv 8 5 0 [1, 2]] ∧
    ((recv_from_ipolite 2 16 true true { c := conn0 (some cb_decline), seqno := 3 } (pkt5 0)
        8).state.map fun s1 => (recv_from_ipolite 2 16 true true s1 (pkt5 0) 8).trace) =
      some [Event.recv 8 5 0 [1, 2]] := by
  decide

/-- C9, amended. If a packet `(O, S)` is received, delivered and relayed (callback true,
snapshot taken, hop count below `HOPS_MAX`, cursor inside the table), then the next reception
of `(O, S)` on that connection, with any hop count, payload, sender, snapshot outcome and
transport answer, calls neither the callback nor `ipolite_send` and leaves the state as it
is. -/
theorem relayed_packet_not_redelivered (PACKET_HISTORY_SIZE HOPS_MAX : Nat)
    (ipolite_ok : Bool) (s : State) (cb : recv_callback) (O : linkaddr_t) (S h : Nat)
    (P : List Nat) (sender : linkaddr_t) (queuebuf_ok2 ipolite_ok2 : Bool) (h2 : Nat)
    (P2 : List Nat) (sender2 : linkaddr_t) (hwf : s.c.wf PACKET_HISTORY_SIZE)
    (hk : s.c.packet_history_i < PACKET_HISTORY_SIZE) (hcb : s.c.u.recv = some cb)
    (hnew : evaluates_new PACKET_HISTORY_SIZE s.c O S = true)
    (hrel : (cb sender O h P).1 = true) (hh : h < HOPS_MAX) :
    ∃ s1, (recv_from_ipolite PACKET_HISTORY_SIZE HOPS_MAX true ipolite_ok s
        { hdr := { originator_seqno := S, originator := O, hops := h }, payload := P }
        sender).state = some s1 ∧
      (recv_from_ipolite PACKET_HISTORY_SIZE HOPS_MAX queuebuf_ok2 ipolite_ok2 s1
        { hdr := { originator_seqno := S, originator := O, hops := h2 }, payload := P2 }
        sender2).trace = [] ∧
      (recv_from_ipolite PACKET_HISTORY_SIZE HOPS_MAX queuebuf_ok2 ipolite_ok2 s1
        { hdr := { originator_seqno := S, originator := O, hops := h2 }, payload := P2 }
        sender2).state = some s1 := by
  rw [recv_relayed PACKET_HISTORY_SIZE HOPS_MAX ipolite_ok s cb _ sender hcb hnew hrel hh]
  obtain ⟨c1, hrec, hget, hu⟩ := relay_record_get PACKET_HISTORY_SIZE s.c
    { originator_seqno := S, originator := O, hops := (h + 1) % 256 } hwf hk
  simp only at hrec hget ⊢
  have hcb1 : ({ s with c := c1 } : State).c.u.recv = some cb := by
    show c1.u.recv = some cb
    rw [hu]; exact hcb
  have hold : evaluates_new PACKET_HISTORY_SIZE ({ s with c := c1 } : State).c O S = false := by
    show evaluates_new PACKET_HISTORY_SIZE c1 O S = false
    rw [evaluates_new_of_get _ _ _ _ _ hget]
    exact is_new_same _ _ _ (history_get_some _ _ _ _ hget).1
  refine ⟨{ s with c := c1 }, by rw [hrec]; rfl, ?_, ?_⟩
  · rw [recv_stale PACKET_HISTORY_SIZE HOPS_MAX queuebuf_ok2 ipolite_ok2 _ cb _ sender2 hcb1
      hold]
  · rw [recv_stale PACKET_HISTORY_SIZE HOPS_MAX queuebuf_ok2 ipolite_ok2 _ cb _ sender2 hcb1
      hold]

/-- Instance of the amended C9: `(5, 2)` relayed, then received again. -/
theorem relayed_packet_not_redelivered_witness :
    (conn0 (some cb_accept)).wf 2 ∧ evaluates_new 2 (conn0 (some cb_accept)) 5 2 = true ∧
    ∃ s1, (recv_from_ipolite 2 16 true true { c := conn0 (some cb_accept), seqno := 3 }
        { hdr := { originator_seqno := 2, originator := 5, hops := 0 }, payload := [1, 2] }
        8).state = some s1 ∧
      (recv_from_ipolite 2 16 true true s1
        { hdr := { originator_seqno := 2, originator := 5, hops := 0 }, payload := [1, 2] }
        8).trace = [] ∧
      (recv_from_ipolite 2 16 true true s1
        { hdr := { originator_seqno := 2, originator := 5, hops := 0 }, payload := [1, 2] }
        8).state = some s1 :=
  ⟨by decide, by decide,
    relayed_packet_not_redelivered 2 16 true { c := conn0 (some cb_accept), seqno := 3 }
      cb_accept 5 2 0 [1, 2] 8 true true 0 [1, 2] 8 (by decide) (by decide) rfl (by decide)
      rfl (by decide)⟩

/-- C10. Declined relay: a new packet with hop count below `HOPS_MAX` whose callback returns
false is handed to the callback exactly once, no `ipolite_send` is made, and the state
(history arrays and cursor included) is unchanged. -/
theorem declined_relay_no_effect (PACKET_HISTORY_SIZE HOPS_MAX : Nat)
    (queuebuf_ok ipolite_ok : Bool) (s : State) (cb : recv_callback) (O : linkaddr_t)
    (S h : Nat) (P : List Nat) (sender : linkaddr_t) (hcb : s.c.u.recv = some cb)
    (hnew : evaluates_new PACKET_HISTORY_SIZE s.c O S = true) (_hh : h < HOPS_MAX)
    (hdec : (cb sender O h P).1 = false) :
    (recv_from_ipolite PACKET_HISTORY_SIZE HOPS_MAX queuebuf_ok ipolite_ok s
        { hdr := { originator_seqno := S, originator := O, hops := h }, payload := P }
        sender).trace = [Event.recv sender O h P] ∧
    (recv_from_ipolite PACKET_HISTORY_SIZE HOPS_MAX queuebuf_ok ipolite_ok s
        { hdr := { originator_seqno := S, originator := O, hops := h }, payload := P }
        sender).state = some s := by
  rw [recv_declined PACKET_HISTORY_SIZE HOPS_MAX queuebuf_ok ipolite_ok s cb _ sender hcb hnew
    hdec]
  exact ⟨rfl, rfl⟩

/-- Instance of C10 with a callback that declines. -/
theorem declined_relay_no_effect_witness :
    evaluates_new 2 (conn0 (some cb_decline)) 5 2 = true ∧ 0 < 16 ∧
    (recv_from_ipolite 2 16 true true { c := conn0 (some cb_decline), seqno := 3 }
        { hdr := { originator_seqno := 2, originator := 5, hops := 0 }, payload := [1, 2] }
        8).trace = [Event.recv 8 5 0 [1, 2]] :=
  ⟨by decide, by decide, (declined_relay_no_effect 2 16 true true
    { c := conn0 (some cb_decline), seqno := 3 } cb_decline 5 2 0 [1, 2] 8 rfl (by decide)
    (by decide) rfl).1⟩


/-! ## The update rule of the history table -/

theorem history_lookup_getElem (l : List linkaddr_t) (o : linkaddr_t)
    (h : history_lookup l o < l.length) : l[history_lookup l o]? = some o := by
  induction l with
  | nil => simp at h
  | cons a rest ih =>
    simp only [history_lookup] at h ⊢
    split
    · next hao => simp [hao]
    · next hao =>
      rw [if_neg hao] at h
      simp only [List.length_cons, Nat.add_lt_add_iff_right] at h
      simpa using ih h

theorem history_lookup_first (l : List linkaddr_t) (o : linkaddr_t) (j : Nat)
    (hj : j < history_lookup l o) : l[j]? ≠ some o := by
  induction l generalizing j with
  | nil => simp
  | cons a rest ih =>
    simp only [history_lookup] at hj
    split at hj
    · omega
    · next hao =>
      cases j with
      | zero => simpa using hao
      | succ j => simpa using ih j (by omega)

theorem history_lookup_lt_of_getElem (l : List linkaddr_t) (o : linkaddr_t) (j : Nat)
    (hj : l[j]? = some o) : history_lookup l o < l.length := by
  have hle := history_lookup_le l o
  by_contra hcon
  have hjl : j < l.length := by
    by_contra hn
    rw [List.getElem?_eq_none (by omega)] at hj
    simp at hj
  exact history_lookup_first l o j (by omega) hj

theorem INCREMENT_cursor (N : Nat) (c : netflood_conn) (hk : c.packet_history_i < N) :
    (INCREMENT_PACKET_HISTORY_I N c).packet_history_i = (c.packet_history_i + 1) % N ∧
    (INCREMENT_PACKET_HISTORY_I N c).packet_history_i < N := by
  unfold INCREMENT_PACKET_HISTORY_I
  simp only
  split
  · next h =>
    have : c.packet_history_i + 1 = N := by omega
    simp only [this, Nat.mod_self]
    exact ⟨trivial, by omega⟩
  · next h =>
    simp only
    rw [Nat.mod_eq_of_lt (by omega)]
    exact ⟨rfl, by omega⟩

theorem INCREMENT_arrays (N : Nat) (c : netflood_conn) :
    (INCREMENT_PACKET_HISTORY_I N c).last_originators = c.last_originators ∧
    (INCREMENT_PACKET_HISTORY_I N c).last_originator_seqnos = c.last_originator_seqnos := by
  unfold INCREMENT_PACKET_HISTORY_I
  simp only
  split <;> exact ⟨rfl, rfl⟩

/-- Recording `(o, seq)` through the loop index of `o` follows the update rule. -/
theorem relay_record_updated (N : Nat) (c : netflood_conn) (hdr : netflood_hdr)
    (hwf : c.wf N) (hk : c.packet_history_i < N) :
    ∃ c1, relay_record N c (history_lookup c.last_originators hdr.originator) hdr = some c1 ∧
      history_updated N c hdr.originator hdr.originator_seqno c1 := by
  obtain ⟨hlo, hls⟩ := hwf
  have hle := history_lookup_le c.last_originators hdr.originator
  by_cases hi : history_lookup c.last_originators hdr.originator ≥ N
  · rw [relay_record_absent N c _ hdr hi hk]
    refine ⟨_, rfl, ?_, ?_⟩
    · rintro ⟨j, hj⟩
      have := history_lookup_lt_of_getElem _ _ j hj
      omega
    · intro _
      obtain ⟨hlos, hsqs⟩ := INCREMENT_arrays N
        { c with last_originators := c.last_originators.set c.packet_history_i hdr.originator,
                 last_originator_seqnos :=
                   c.last_originator_seqnos.set c.packet_history_i hdr.originator_seqno }
      obtain ⟨hcur, _⟩ := INCREMENT_cursor N
        { c with last_originators := c.last_originators.set c.packet_history_i hdr.originator,
                 last_originator_seqnos :=
                   c.last_originator_seqnos.set c.packet_history_i hdr.originator_seqno } hk
      rw [hlos, hsqs, hcur]
      refine ⟨?_, ?_, rfl, ?_⟩
      · exact List.getElem?_set_self (by show c.packet_history_i < c.last_originators.length; omega)
      · exact List.getElem?_set_self
          (by show c.packet_history_i < c.last_originator_seqnos.length; omega)
      · intro j hj
        exact ⟨List.getElem?_set_ne (Ne.symm hj), List.getElem?_set_ne (Ne.symm hj)⟩
  · have hlt : history_lookup c.last_originators hdr.originator < N := by omega
    rw [relay_record_present N c _ hdr hlt]
    refine ⟨_, rfl, ?_, ?_⟩
    · intro _
      refine ⟨history_lookup c.last_originators hdr.originator,
        history_lookup_getElem _ _ (by omega), ?_, ?_, ?_, rfl, ?_⟩
      · intro j hj
        exact history_lookup_first _ _ j hj
      · exact List.getElem?_set_self (by omega)
      · exact List.getElem?_set_self (by omega)
      · intro j hj
        exact ⟨List.getElem?_set_ne (Ne.symm hj), List.getElem?_set_ne (Ne.symm hj)⟩
    · intro hno
      exact absurd ⟨_, history_lookup_getElem _ _ (by omega)⟩ hno

/-! ## Properties of the history table, the snapshot and the lifecycle -/

/-- The relay of a new packet `(O, S)` from a well-formed connection with the cursor inside
the table follows the update rule `history_updated`. -/
theorem relay_update_rule (PACKET_HISTORY_SIZE HOPS_MAX : Nat) (ipolite_ok : Bool) (s : State)
    (cb : recv_callback) (O : linkaddr_t) (S h : Nat) (P : List Nat) (sender : linkaddr_t)
    (hwf : s.c.wf PACKET_HISTORY_SIZE) (hk : s.c.packet_history_i < PACKET_HISTORY_SIZE)
    (hcb : s.c.u.recv = some cb) (hnew : evaluates_new PACKET_HISTORY_SIZE s.c O S = true)
    (hrel : (cb sender O h P).1 = true) (hh : h < HOPS_MAX) :
    ∃ s1, (recv_from_ipolite PACKET_HISTORY_SIZE HOPS_MAX true ipolite_ok s
        { hdr := { originator_seqno := S, originator := O, hops := h }, payload := P }
        sender).state = some s1 ∧
      history_updated PACKET_HISTORY_SIZE s.c O S s1.c := by
  rw [recv_relayed PACKET_HISTORY_SIZE HOPS_MAX ipolite_ok s cb _ sender hcb hnew hrel hh]
  obtain ⟨c1, hrec, hupd⟩ := relay_record_updated PACKET_HISTORY_SIZE s.c
    { originator_seqno := S, originator := O, hops := (h + 1) % 256 } hwf hk
  simp only at hrec hupd ⊢
  exact ⟨{ s with c := c1 }, by rw [hrec]; rfl, hupd⟩

/-- An accepted `netflood2_send` from a well-formed connection with the cursor inside the
table follows the update rule `history_updated` for the node's own address when that address
is not yet in the table or the packet buffer still holds it under `hdr`. -/
theorem send_update_rule_when_kept (PACKET_HISTORY_SIZE : Nat)
    (linkaddr_node_addr : linkaddr_t) (hdr_after : netflood_hdr) (s : State)
    (payload : List Nat) (hwf : s.c.wf PACKET_HISTORY_SIZE)
    (hk : s.c.packet_history_i < PACKET_HISTORY_SIZE)
    (hkept : history_get PACKET_HISTORY_SIZE s.c linkaddr_node_addr = none ∨
      hdr_after.originator = linkaddr_node_addr) :
    ∃ s2, (netflood2_send PACKET_HISTORY_SIZE linkaddr_node_addr true true hdr_after s
        payload).result = some (s2, 1) ∧
      history_updated PACKET_HISTORY_SIZE s.c linkaddr_node_addr (shifted_seqno s.seqno)
        s2.c := by
  rw [netflood2_send_accepted, recorded_address_own _ _ _ _ hkept]
  obtain ⟨c1, hrec, hupd⟩ := relay_record_updated PACKET_HISTORY_SIZE s.c
    { originator_seqno := shifted_seqno s.seqno, originator := linkaddr_node_addr, hops := 0 }
    hwf hk
  simp only at hrec hupd ⊢
  exact ⟨{ c := c1, seqno := (s.seqno + 1) % 256 }, by rw [hrec]; rfl, hupd⟩

/-- Scenario C of the specification on two slots: originators 11 and 12 sit in slots 0 and 1
with the cursor on slot 0; the relay of a packet from the new originator 13 takes slot 0,
slot 1 keeps originator 12 and the cursor moves to 1. -/
theorem relay_update_rule_scenario_C :
    (recv_from_ipolite 2 16 true true { c := conn2 (some cb_accept), seqno := 3 }
        { hdr := { originator_seqno := 4, originator := 13, hops := 0 }, payload := [1, 2] }
        8).state.map State.history = some ([13, 12], [4, 8], 1) := by
  decide

/-- C11, evaluated where the code departs from it. Node 12 is in slot 1 of a two-slot table
(slot 0 holds 11, cursor 0) and sends with counter 3; the transport accepts after the packet
buffer was reused. C11 says the first slot holding 12 becomes `(12, 6)`; line 220 copies the
address now in the buffer, so slot 1 becomes `(61166, 6)` and the connection after the send
is not related to the one before by `history_updated`. The sequence number, the cursor and
slot 0 are as C11 says. -/
theorem send_update_rule_broken :
    (conn2 none).wf 2 ∧ (conn2 none).packet_history_i < 2 ∧
    (conn2 none).last_originators[1]? = some 12 ∧
    (netflood2_send 2 12 true true hdr_reused { c := conn2 none, seqno := 3 }
      [1, 2]).result.map (fun r => (r.1.history, r.2)) = some (([11, 61166], [6, 6], 0), 1) ∧
    ∃ s2, (netflood2_send 2 12 true true hdr_reused { c := conn2 none, seqno := 3 }
        [1, 2]).result = some (s2, 1) ∧
      ¬ history_updated 2 (conn2 none) 12 (shifted_seqno 3) s2.c := by
  refine ⟨by decide, by decide, by decide, by decide,
    { c := { conn2 none with last_originators := [11, 61166],
                             last_originator_seqnos := [6, 6] }, seqno := 4 }, rfl, ?_⟩
  intro hupd
  obtain ⟨i, hi, _, hi1, _⟩ := hupd.1 ⟨1, rfl⟩
  rcases i with _ | _ | i
  · simp [conn2] at hi
  · simp at hi1
  · simp [conn2] at hi

/-- C12. Snapshot exhaustion: with a receive callback registered and no snapshot, a packet is
handed to the callback exactly when the test of lines 100-116 passes, which is also exactly
when it is handed over with a snapshot; a new packet is delivered once; no `ipolite_send` is
made and the state (history arrays, cursor) is unchanged whatever the callback returns. -/
theorem snapshot_exhaustion_no_relay (PACKET_HISTORY_SIZE HOPS_MAX : Nat)
    (ipolite_ok : Bool) (s : State) (cb : recv_callback) (O : linkaddr_t) (S h : Nat)
    (P : List Nat) (sender : linkaddr_t) (hcb : s.c.u.recv = some cb) :
    (recv_from_ipolite PACKET_HISTORY_SIZE HOPS_MAX false ipolite_ok s
        { hdr := { originator_seqno := S, originator := O, hops := h }, payload := P }
        sender).trace =
      (if evaluates_new PACKET_HISTORY_SIZE s.c O S then [Event.recv sender O h P] else []) ∧
    (recv_from_ipolite PACKET_HISTORY_SIZE HOPS_MAX false ipolite_ok s
        { hdr := { originator_seqno := S, originator := O, hops := h }, payload := P }
        sender).state = some s ∧
    (recv_from_ipolite PACKET_HISTORY_SIZE HOPS_MAX true ipolite_ok s
        { hdr := { originator_seqno := S, originator := O, hops := h }, payload := P }
        sender).trace.head? =
      (recv_from_ipolite PACKET_HISTORY_SIZE HOPS_MAX false ipolite_ok s
        { hdr := { originator_seqno := S, originator := O, hops := h }, payload := P }
        sender).trace.head? := by
  cases hnew : evaluates_new PACKET_HISTORY_SIZE s.c O S
  · rw [recv_stale PACKET_HISTORY_SIZE HOPS_MAX false ipolite_ok s cb _ sender hcb hnew,
      recv_stale PACKET_HISTORY_SIZE HOPS_MAX true ipolite_ok s cb _ sender hcb hnew]
    simp
  · unfold evaluates_new at hnew
    cases hr : (cb sender O h P).1 <;> by_cases hh : h < HOPS_MAX <;>
      simp [recv_from_ipolite, hcb, hnew, hr, hh]

/-- Instance of C12: a new packet, a callback that asks for relay, no snapshot. -/
theorem snapshot_exhaustion_no_relay_witness :
    (recv_from_ipolite 2 16 false true { c := conn0 (some cb_accept), seqno := 3 }
        { hdr := { originator_seqno := 2, originator := 5, hops := 0 }, payload := [1, 2] }
        8).state.map State.history = some ([0, 0], [0, 0], 0) ∧
    (recv_from_ipolite 2 16 false true { c := conn0 (some cb_accept), seqno := 3 }
        { hdr := { originator_seqno := 2, originator := 5, hops := 0 }, payload := [1, 2] }
        8).trace =
      (if evaluates_new 2 (conn0 (some cb_accept)) 5 2 then [Event.recv 8 5 0 [1, 2]] else []) :=
  ⟨by decide, (snapshot_exhaustion_no_relay 2 16 true
    { c := conn0 (some cb_accept), seqno := 3 } cb_accept 5 2 0 [1, 2] 8 rfl).1⟩

/-- C13, as stated, fails: `netflood2_open` leaves the history arrays as they are, so after
opening a connection whose slot 1 held `(5, 2)` the lookup still finds originator 5 and the
packet `(5, 2)` does not pass the test. -/
theorem open_keeps_history :
    (netflood2_open (conn1 none 2) 9 130 { recv := some cb_accept }).packet_history_i = 0 ∧
    history_get 2 (netflood2_open (conn1 none 2) 9 130 { recv := some cb_accept }) 5 = some 2 ∧
    evaluates_new 2 (netflood2_open (conn1 none 2) 9 130 { recv := some cb_accept }) 5 2
      = false ∧
    (recv_from_ipolite 2 16 true true
      { c := netflood2_open (conn1 none 2) 9 130 { recv := some cb_accept }, seqno := 0 }
      (pkt5 0) 8).trace = [] := by
  decide

/-- C13, amended. After `netflood2_open` the cursor is 0 and both history arrays hold what
they held before; an originator that the lookup does not find in those arrays has its first
packet, with any sequence number, evaluated new. -/
theorem open_resets_cursor_only (PACKET_HISTORY_SIZE : Nat) (c : netflood_conn)
    (queue_time channel : Nat) (u : netflood_callbacks) (O : linkaddr_t) (S : Nat)
    (habsent : history_get PACKET_HISTORY_SIZE c O = none) :
    (netflood2_open c queue_time channel u).packet_history_i = 0 ∧
    (netflood2_open c queue_time channel u).last_originators = c.last_originators ∧
    (netflood2_open c queue_time channel u).last_originator_seqnos = c.last_originator_seqnos ∧
    evaluates_new PACKET_HISTORY_SIZE (netflood2_open c queue_time channel u) O S = true := by
  refine ⟨rfl, rfl, rfl, ?_⟩
  unfold history_get at habsent
  simp only at habsent
  split at habsent
  · simp at habsent
  · next hi =>
    unfold evaluates_new
    rw [is_new_iff]
    left
    show PACKET_HISTORY_SIZE ≤ history_lookup c.last_originators O
    omega

/-- Instance of the amended C13: originator 5 is in neither slot of the table. -/
theorem open_resets_cursor_only_witness :
    history_get 2 (conn2 none) 5 = none ∧
    evaluates_new 2 (netflood2_open (conn2 none) 9 130 { recv := some cb_accept }) 5 2 = true :=
  ⟨by decide, (open_resets_cursor_only 2 (conn2 none) 9 130 { recv := some cb_accept } 5 2
    (by decide)).2.2.2⟩

/-- C14. Originated header: when header space is reserved, `netflood2_send` makes one
`ipolite_send` call whose frame has the node's own address as originator, sequence number
`shifted_seqno v` and hop count 0, followed by the staged payload; `shifted_seqno v` is
`(v << 1) mod 256` plus one exactly when `v > 127`, so its low bit is set iff `v > 127`. -/
theorem originated_header (PACKET_HISTORY_SIZE : Nat) (linkaddr_node_addr : linkaddr_t)
    (ipolite_ok : Bool) (hdr_after : netflood_hdr) (s : State) (P : List Nat) :
    (netflood2_send PACKET_HISTORY_SIZE linkaddr_node_addr true ipolite_ok hdr_after s
      P).trace =
      [Event.ipolite_send 0 4
        { hdr := { originator_seqno := shifted_seqno s.seqno,
                   originator := linkaddr_node_addr, hops := 0 }, payload := P }] ∧
    shifted_seqno s.seqno = (s.seqno <<< 1) % 256 + (if s.seqno > 127 then 1 else 0) ∧
    ((shifted_seqno s.seqno) &&& 1 = 1 ↔ s.seqno > 127) := by
  refine ⟨?_, ?_, ?_⟩
  · cases ipolite_ok <;> simp [netflood2_send]
  · rw [shifted_seqno_eq, Nat.shiftLeft_eq]
    split <;> omega
  · rw [shifted_seqno_eq, Nat.and_one_is_mod]
    split <;> omega

/-! ## The cursor invariant -/

/-- A record made under a valid cursor succeeds and keeps the table well formed and the cursor
valid. -/
theorem relay_record_inv (N : Nat) (c : netflood_conn) (i : Nat) (hdr : netflood_hdr)
    (hwf : c.wf N) (hk : c.packet_history_i < N) :
    ∃ c1, relay_record N c i hdr = some c1 ∧ c1.wf N ∧ c1.packet_history_i < N := by
  obtain ⟨hlo, hls⟩ := hwf
  by_cases hi : i ≥ N
  · rw [relay_record_absent N c i hdr hi hk]
    refine ⟨_, rfl, ?_, ?_⟩
    · obtain ⟨hlos, hsqs⟩ := INCREMENT_arrays N
        { c with last_originators := c.last_originators.set c.packet_history_i hdr.originator,
                 last_originator_seqnos :=
                   c.last_originator_seqnos.set c.packet_history_i hdr.originator_seqno }
      unfold netflood_conn.wf
      rw [hlos, hsqs]
      simp only [List.length_set]
      exact ⟨hlo, hls⟩
    · exact (INCREMENT_cursor N
        { c with last_originators := c.last_originators.set c.packet_history_i hdr.originator,
                 last_originator_seqnos :=
                   c.last_originator_seqnos.set c.packet_history_i hdr.originator_seqno } hk).2
  · rw [relay_record_present N c i hdr (by omega)]
    refine ⟨_, rfl, ?_, hk⟩
    unfold netflood_conn.wf
    simp only [List.length_set]
    exact ⟨hlo, hls⟩

/-- Reception either leaves the state alone or records the packet. -/
theorem recv_state_cases (N HM : Nat) (qok iok : Bool) (s : State) (pkt : Packet)
    (sender : linkaddr_t) :
    (recv_from_ipolite N HM qok iok s pkt sender).state = some s ∨
    (recv_from_ipolite N HM qok iok s pkt sender).state =
      (relay_record N s.c (history_lookup s.c.last_originators pkt.hdr.originator)
        { pkt.hdr with hops := (pkt.hdr.hops + 1) % 256 }).map fun c1 => { s with c := c1 } := by
  unfold recv_from_ipolite
  simp only
  cases s.c.u.recv with
  | none => left; rfl
  | some cb =>
    simp only
    split
    · split
      · cases qok
        · left; rfl
        · simp only [if_true]
          split
          · right; rfl
          · left; rfl
      · left; rfl
    · left; rfl

/-- Reception keeps the table well formed and the cursor valid, and never faults. -/
theorem recv_inv (N HM : Nat) (qok iok : Bool) (s : State) (pkt : Packet)
    (sender : linkaddr_t) (hwf : s.c.wf N) (hk : s.c.packet_history_i < N) :
    ∃ s1, (recv_from_ipolite N HM qok iok s pkt sender).state = some s1 ∧ s1.c.wf N ∧
      s1.c.packet_history_i < N := by
  rcases recv_state_cases N HM qok iok s pkt sender with h | h
  · exact ⟨s, h, hwf, hk⟩
  · obtain ⟨c1, hrec, hwf1, hk1⟩ := relay_record_inv N s.c
      (history_lookup s.c.last_originators pkt.hdr.originator)
      { pkt.hdr with hops := (pkt.hdr.hops + 1) % 256 } hwf hk
    rw [hrec] at h
    exact ⟨{ s with c := c1 }, h, hwf1, hk1⟩

/-- Sending keeps the table well formed and the cursor valid, and never faults. -/
theorem send_inv (N : Nat) (node : linkaddr_t) (aok iok : Bool) (hdr_after : netflood_hdr)
    (s : State) (payload : List Nat) (hwf : s.c.wf N) (hk : s.c.packet_history_i < N) :
    ∃ s1 r, (netflood2_send N node aok iok hdr_after s payload).result = some (s1, r) ∧
      s1.c.wf N ∧ s1.c.packet_history_i < N := by
  cases aok
  · exact ⟨s, 0, by simp [netflood2_send], hwf, hk⟩
  · cases iok
    · exact ⟨s, 0, by simp [netflood2_send], hwf, hk⟩
    · obtain ⟨c1, hrec, hwf1, hk1⟩ := relay_record_inv N s.c
        (history_lookup s.c.last_originators node)
        { originator_seqno := shifted_seqno s.seqno,
          originator := if history_lookup s.c.last_originators node < N
            then hdr_after.originator else node,
          hops := 0 } hwf hk
      rw [netflood2_send_accepted]
      simp only
      rw [hrec]
      exact ⟨{ c := c1, seqno := (s.seqno + 1) % 256 }, 1, rfl, hwf1, hk1⟩

/-- Every sequence of entries from a well-formed state with a valid cursor runs without a
fault and ends in such a state. -/
theorem run_inv (N HM : Nat) (node : linkaddr_t) (ops : List Op) (s : State)
    (hwf : s.c.wf N) (hk : s.c.packet_history_i < N) :
    ∃ s1, run N HM node s ops = some s1 ∧ s1.c.wf N ∧ s1.c.packet_history_i < N := by
  induction ops generalizing s with
  | nil => exact ⟨s, rfl, hwf, hk⟩
  | cons op rest ih =>
    have hstep : ∃ s1, step N HM node s op = some s1 ∧ s1.c.wf N ∧
        s1.c.packet_history_i < N := by
      cases op with
      | send aok iok hdr_after payload =>
        obtain ⟨s1, r, hres, hwf1, hk1⟩ := send_inv N node aok iok hdr_after s payload hwf hk
        exact ⟨s1, by simp [step, hres], hwf1, hk1⟩
      | recv qok iok pkt sender =>
        obtain ⟨s1, hres, hwf1, hk1⟩ := recv_inv N HM qok iok s pkt sender hwf hk
        exact ⟨s1, by simp [step, hres], hwf1, hk1⟩
    obtain ⟨s1, hs1, hwf1, hk1⟩ := hstep
    obtain ⟨s2, hs2, hwf2, hk2⟩ := ih s1 hwf1 hk1
    exact ⟨s2, by simp [run, hs1, hs2], hwf2, hk2⟩

/-- Against the successor encoding in the history, the preceding encoding passes the test
only at the two counter values just before a flip of the low bit. -/
theorem is_new_pred_iff (N i v : Nat) (hv : v < 256) (hi : i < N) :
    is_new N i (shifted_seqno ((v + 1) % 256)) (shifted_seqno v) = true ↔
      (v = 127 ∨ v = 255) := by
  rw [is_new_iff, shifted_seqno_eq, shifted_seqno_eq]
  split <;> split <;> omega

/-! ## Properties of the encoding, the transport arguments and the wire format -/

/-- C15, as stated, fails: counter value 128 is sent as 1, whose upper seven bits are 0, not
128. -/
theorem ordinal_of_128_is_0 :
    shifted_seqno 128 = 1 ∧ shifted_seqno 128 >>> 1 = 0 ∧ shifted_seqno 128 >>> 1 ≠ 128 := by
  decide

/-- C15, amended. For every 8-bit counter value `v`, `shifted_seqno v >> 1` is `v mod 128`
(the low seven bits of `v`), which is `v` itself exactly when `v ≤ 127`, and
`shifted_seqno v & 1` is the high bit of `v`. -/
theorem ordinal_is_low_seven_bits (v : Nat) (hv : v < 256) :
    shifted_seqno v >>> 1 = v % 128 ∧ (shifted_seqno v >>> 1 = v ↔ v ≤ 127) ∧
    shifted_seqno v &&& 1 = v >>> 7 := by
  rw [shifted_seqno_eq, Nat.and_one_is_mod, Nat.shiftRight_eq_div_pow, Nat.shiftRight_eq_div_pow]
  split <;> omega

/-- Instance of the amended C15 at counter value 200. -/
theorem ordinal_is_low_seven_bits_witness :
    shifted_seqno 200 >>> 1 = 200 % 128 ∧ (shifted_seqno 200 >>> 1 = 200 ↔ 200 ≤ 127) ∧
    shifted_seqno 200 &&& 1 = 200 >>> 7 :=
  ordinal_is_low_seven_bits 200 (by decide)

/-- C16, as stated, fails: on a connection opened with queue time 9, `netflood2_send` calls
`ipolite_send` with interval 0, and the relay of a received packet calls it with interval
9. -/
theorem queue_time_not_used_by_send :
    (netflood2_open (conn0 none) 9 130 { recv := some cb_accept }).queue_time = 9 ∧
    send_intervals (netflood2_send 2 5 true true (hdr_kept 5 3)
      { c := netflood2_open (conn0 none) 9 130 { recv := some cb_accept }, seqno := 3 }
      [1, 2]).trace = [0] ∧
    send_intervals (recv_from_ipolite 2 16 true true
      { c := netflood2_open (conn0 none) 9 130 { recv := some cb_accept }, seqno := 3 }
      (pkt5 0) 8).trace = [9] := by
  decide

/-- C16, amended. The queue time given to `netflood2_open` is stored in the connection and is
used only when relaying: the `ipolite_send` call of the relay path passes it as the interval,
and the `ipolite_send` call of `netflood2_send` passes interval 0 whatever the queue time. -/
theorem queue_time_used_on_relay_only (PACKET_HISTORY_SIZE HOPS_MAX : Nat)
    (linkaddr_node_addr : linkaddr_t) (ipolite_ok ipolite_ok2 : Bool)
    (hdr_after : netflood_hdr) (c : netflood_conn)
    (queue_time channel : Nat) (u : netflood_callbacks) (seqno : Nat) (cb : recv_callback)
    (O : linkaddr_t) (S h : Nat) (P : List Nat) (sender : linkaddr_t) (P2 : List Nat)
    (hcb : u.recv = some cb)
    (hnew : evaluates_new PACKET_HISTORY_SIZE (netflood2_open c queue_time channel u) O S
      = true)
    (hrel : (cb sender O h P).1 = true) (hh : h < HOPS_MAX) :
    (netflood2_open c queue_time channel u).queue_time = queue_time ∧
    send_intervals (netflood2_send PACKET_HISTORY_SIZE linkaddr_node_addr true ipolite_ok
      hdr_after { c := netflood2_open c queue_time channel u, seqno := seqno } P2).trace
      = [0] ∧
    send_intervals (recv_from_ipolite PACKET_HISTORY_SIZE HOPS_MAX true ipolite_ok2
      { c := netflood2_open c queue_time channel u, seqno := seqno }
      { hdr := { originator_seqno := S, originator := O, hops := h }, payload := P }
      sender).trace = [queue_time] := by
  refine ⟨rfl, ?_, ?_⟩
  · cases ipolite_ok <;> simp [netflood2_send, send_intervals]
  · rw [recv_relayed PACKET_HISTORY_SIZE HOPS_MAX ipolite_ok2
      { c := netflood2_open c queue_time channel u, seqno := seqno } cb _ sender hcb hnew hrel
      hh]
    simp [send_intervals, netflood2_open]

/-- Instance of the amended C16 with queue time 9. -/
theorem queue_time_used_on_relay_only_witness :
    evaluates_new 2 (netflood2_open (conn0 none) 9 130 { recv := some cb_accept }) 5 2 = true ∧
    send_intervals (recv_from_ipolite 2 16 true true
      { c := netflood2_open (conn0 none) 9 130 { recv := some cb_accept }, seqno := 3 }
      { hdr := { originator_seqno := 2, originator := 5, hops := 0 }, payload := [1, 2] }
      8).trace = [9] :=
  ⟨by decide, (queue_time_used_on_relay_only 2 16 5 true true hdr_reused (conn0 none) 9 130
    { recv := some cb_accept } 3 cb_accept 5 2 0 [1, 2] 8 [1, 2] rfl (by decide) rfl
    (by decide)).2.2⟩

/-- C17, as stated, fails: with two-byte addresses and no padding, node 5 sending with counter
3 puts the bytes 6, 5, 0, 0 in front of the payload (sequence number first), and relaying the
frame `(5, 2, 0)` puts 2, 5, 0, 1 there; the order of the specification would give
5, 0, 6, 0 and 5, 0, 2, 1. -/
theorem wire_starts_with_seqno :
    (sent_frames (netflood2_send 2 5 true true (hdr_kept 5 3) { c := conn0 none, seqno := 3 }
      [1, 2]).trace).map (frame_bytes layout2) = [[6, 5, 0, 0, 1, 2]] ∧
    (sent_frames (netflood2_send 2 5 true true (hdr_kept 5 3) { c := conn0 none, seqno := 3 }
      [1, 2]).trace).map (fun p => spec_hdr_bytes layout2 p.hdr ++ p.payload)
      = [[5, 0, 6, 0, 1, 2]] ∧
    (sent_frames (recv_from_ipolite 2 16 true true
      { c := conn0 (some cb_accept), seqno := 3 } (pkt5 0) 8).trace).map (frame_bytes layout2)
      = [[2, 5, 0, 1, 1, 2]] ∧
    (sent_frames (recv_from_ipolite 2 16 true true
      { c := conn0 (some cb_accept), seqno := 3 } (pkt5 0) 8).trace).map
        (fun p => spec_hdr_bytes layout2 p.hdr ++ p.payload) = [[5, 0, 2, 1, 1, 2]] := by
  decide

/-- C17, amended. In every frame produced by origination or relay the header bytes in front
of the payload follow the member order of `struct netflood_hdr`: the one-byte sequence
number, then the originator address, then the one-byte hop count (each followed by whatever
padding the layout has). -/
theorem wire_format_member_order (L : hdr_layout) (PACKET_HISTORY_SIZE HOPS_MAX : Nat)
    (linkaddr_node_addr : linkaddr_t) (ipolite_ok ipolite_ok2 : Bool)
    (hdr_after : netflood_hdr) (s : State)
    (cb : recv_callback) (O : linkaddr_t) (S h : Nat) (P : List Nat) (sender : linkaddr_t)
    (P2 : List Nat) (hcb : s.c.u.recv = some cb)
    (hnew : evaluates_new PACKET_HISTORY_SIZE s.c O S = true)
    (hrel : (cb sender O h P).1 = true) (hmax : HOPS_MAX ≤ 255) (hh : h < HOPS_MAX) :
    (sent_frames (netflood2_send PACKET_HISTORY_SIZE linkaddr_node_addr true ipolite_ok
      hdr_after s P2).trace).map (frame_bytes L) =
      [[shifted_seqno s.seqno] ++ L.pad_seqno ++ L.addr_bytes linkaddr_node_addr ++
        L.pad_originator ++ [0] ++ L.pad_hops ++ P2] ∧
    (sent_frames (recv_from_ipolite PACKET_HISTORY_SIZE HOPS_MAX true ipolite_ok2 s
      { hdr := { originator_seqno := S, originator := O, hops := h }, payload := P }
      sender).trace).map (frame_bytes L) =
      [[S] ++ L.pad_seqno ++ L.addr_bytes O ++ L.pad_originator ++ [h + 1] ++ L.pad_hops ++
        P] := by
  constructor
  · cases ipolite_ok <;> simp [netflood2_send, sent_frames, frame_bytes, hdr_bytes]
  · rw [recv_relayed PACKET_HISTORY_SIZE HOPS_MAX ipolite_ok2 s cb _ sender hcb hnew hrel hh]
    have h256 : (h + 1) % 256 = h + 1 := Nat.mod_eq_of_lt (by omega)
    simp [sent_frames, frame_bytes, hdr_bytes, h256]

/-- Instance of the amended C17 with two-byte addresses and no padding. -/
theorem wire_format_member_order_witness :
    (sent_frames (recv_from_ipolite 2 16 true true
      { c := conn0 (some cb_accept), seqno := 3 }
      { hdr := { originator_seqno := 2, originator := 5, hops := 0 }, payload := [1, 2] }
      8).trace).map (frame_bytes layout2) =
      [[2] ++ layout2.pad_seqno ++ layout2.addr_bytes 5 ++ layout2.pad_originator ++ [0 + 1] ++
        layout2.pad_hops ++ [1, 2]] :=
  (wire_format_member_order layout2 2 16 5 true true hdr_reused
    { c := conn0 (some cb_accept), seqno := 3 } cb_accept 5 2 0 [1, 2] 8 [1, 2] rfl
    (by decide) rfl (by decide) (by decide)).2

/-! ## Properties of the cursor, of older packets and of a missing callback -/

/-- C18. Cursor invariant: with a table of at least one slot, the cursor is below
`PACKET_HISTORY_SIZE` after `netflood2_open`; from any well-formed state with the cursor below
`PACKET_HISTORY_SIZE`, every `netflood2_send` and every reception, whatever the packet, the
callback, the snapshot outcome and the transport answer, ends without a memory fault in a
state whose cursor is again below `PACKET_HISTORY_SIZE`; hence so does every sequence of sends
and receptions after `netflood2_open`. -/
theorem cursor_invariant (PACKET_HISTORY_SIZE HOPS_MAX : Nat) (linkaddr_node_addr : linkaddr_t)
    (c0 : netflood_conn) (queue_time channel : Nat) (u : netflood_callbacks) (seqno0 : Nat)
    (ops : List Op) (s : State) (hdralloc_ok ipolite_ok queuebuf_ok ipolite_ok2 : Bool)
    (hdr_after : netflood_hdr) (payload : List Nat) (pkt : Packet) (sender : linkaddr_t)
    (hN : 0 < PACKET_HISTORY_SIZE) (hwf0 : c0.wf PACKET_HISTORY_SIZE)
    (hwf : s.c.wf PACKET_HISTORY_SIZE) (hk : s.c.packet_history_i < PACKET_HISTORY_SIZE) :
    (netflood2_open c0 queue_time channel u).packet_history_i < PACKET_HISTORY_SIZE ∧
    (∃ s1 r, (netflood2_send PACKET_HISTORY_SIZE linkaddr_node_addr hdralloc_ok ipolite_ok
        hdr_after s payload).result = some (s1, r) ∧ s1.c.wf PACKET_HISTORY_SIZE ∧
      s1.c.packet_history_i < PACKET_HISTORY_SIZE) ∧
    (∃ s1, (recv_from_ipolite PACKET_HISTORY_SIZE HOPS_MAX queuebuf_ok ipolite_ok2 s pkt
        sender).state = some s1 ∧ s1.c.wf PACKET_HISTORY_SIZE ∧
      s1.c.packet_history_i < PACKET_HISTORY_SIZE) ∧
    (∃ s1, run PACKET_HISTORY_SIZE HOPS_MAX linkaddr_node_addr
        { c := netflood2_open c0 queue_time channel u, seqno := seqno0 } ops = some s1 ∧
      s1.c.wf PACKET_HISTORY_SIZE ∧ s1.c.packet_history_i < PACKET_HISTORY_SIZE) := by
  refine ⟨hN, ?_, ?_, ?_⟩
  · exact send_inv PACKET_HISTORY_SIZE linkaddr_node_addr hdralloc_ok ipolite_ok hdr_after s
      payload hwf hk
  · exact recv_inv PACKET_HISTORY_SIZE HOPS_MAX queuebuf_ok ipolite_ok2 s pkt sender hwf hk
  · exact run_inv PACKET_HISTORY_SIZE HOPS_MAX linkaddr_node_addr ops
      { c := netflood2_open c0 queue_time channel u, seqno := seqno0 } hwf0 hN

/-- Instance of C18: a two-slot connection is opened, relays a packet from originator 5,
sends twice as node 7 and relays a packet from originator 6, ending with originators 6 and 7
in the table and the cursor on slot 1; the single steps start from cursor 1, where a new
originator makes the cursor wrap to 0. -/
theorem cursor_invariant_witness :
    (run 2 16 7 { c := netflood2_open (conn2 none) 9 130 { recv := some cb_accept }, seqno := 0 }
      [Op.recv true true (pkt5 0) 8, Op.send true true (hdr_kept 7 0) [3],
       Op.send true true (hdr_kept 7 1) [4],
       Op.recv true false { hdr := { originator_seqno := 2, originator := 6, hops := 1 },
                            payload := [] } 8]).map State.history
      = some ([6, 7], [2, 2], 1) ∧
    ((netflood2_open (conn2 none) 9 130 { recv := some cb_accept }).packet_history_i < 2 ∧
    (∃ s1 r, (netflood2_send 2 7 true true hdr_reused
        { c := { conn2 (some cb_accept) with packet_history_i := 1 }, seqno := 0 }
        [3]).result = some (s1, r) ∧ s1.c.wf 2 ∧ s1.c.packet_history_i < 2) ∧
    (∃ s1, (recv_from_ipolite 2 16 true true
        { c := { conn2 (some cb_accept) with packet_history_i := 1 }, seqno := 0 } (pkt5 0)
        8).state = some s1 ∧ s1.c.wf 2 ∧ s1.c.packet_history_i < 2) ∧
    (∃ s1, run 2 16 7
        { c := netflood2_open (conn2 none) 9 130 { recv := some cb_accept }, seqno := 0 }
        [Op.recv true true (pkt5 0) 8, Op.send true true (hdr_kept 7 0) [3],
       Op.send true true (hdr_kept 7 1) [4],
         Op.recv true false { hdr := { originator_seqno := 2, originator := 6, hops := 1 },
                              payload := [] } 8] = some s1 ∧
      s1.c.wf 2 ∧ s1.c.packet_history_i < 2)) :=
  ⟨by decide, cursor_invariant 2 16 7 (conn2 none) 9 130 { recv := some cb_accept } 0
    [Op.recv true true (pkt5 0) 8, Op.send true true (hdr_kept 7 0) [3],
       Op.send true true (hdr_kept 7 1) [4],
     Op.recv true false { hdr := { originator_seqno := 2, originator := 6, hops := 1 },
                          payload := [] } 8]
    { c := { conn2 (some cb_accept) with packet_history_i := 1 }, seqno := 0 }
    true true true true hdr_reused [3] (pkt5 0) 8 (by decide) (by decide) (by decide) (by decide)⟩

/-- C19, as stated, fails at the two values just before a flip of the low bit. When the
history holds `shifted_seqno 128 = 1` for originator 5, the older packet carrying
`shifted_seqno 127 = 254` passes the test (ordinal 127 is above ordinal 0) and is handed to
the callback and relayed; likewise `shifted_seqno 255 = 255` passes against the cached
`shifted_seqno 0 = 0`. -/
theorem older_packet_across_flip_is_new :
    shifted_seqno ((127 + 1) % 256) = 1 ∧ shifted_seqno 127 = 254 ∧
    history_get 2 (conn1 (some cb_accept) 1) 5 = some 1 ∧
    evaluates_new 2 (conn1 (some cb_accept) 1) 5 254 = true ∧
    (recv_from_ipolite 2 16 true true { c := conn1 (some cb_accept) 1, seqno := 0 }
      { hdr := { originator_seqno := 254, originator := 5, hops := 0 }, payload := [1, 2] }
      8).trace =
      [Event.recv 8 5 0 [1, 2],
       Event.ipolite_send 7 3
         { hdr := { originator_seqno := 254, originator := 5, hops := 1 },
           payload := [1, 2] }] ∧
    shifted_seqno ((255 + 1) % 256) = 0 ∧ shifted_seqno 255 = 255 ∧
    history_get 2 (conn1 (some cb_accept) 0) 5 = some 0 ∧
    evaluates_new 2 (conn1 (some cb_accept) 0) 5 255 = true := by
  decide

/-- C19, amended. For every 8-bit counter value `v` other than 127 and 255, when the history
holds `shifted_seqno ((v + 1) % 256)` for an originator, the packet from it carrying the
preceding `shifted_seqno v` is evaluated stale: it is not handed to the callback, not relayed,
and the state is unchanged. -/
theorem adjacent_older_stale_away_from_flip (PACKET_HISTORY_SIZE HOPS_MAX : Nat)
    (queuebuf_ok ipolite_ok : Bool) (s : State) (cb : recv_callback) (O : linkaddr_t)
    (v hops : Nat) (payload : List Nat) (sender : linkaddr_t) (hv : v < 256)
    (h127 : v ≠ 127) (h255 : v ≠ 255) (hcb : s.c.u.recv = some cb)
    (hget : history_get PACKET_HISTORY_SIZE s.c O = some (shifted_seqno ((v + 1) % 256))) :
    evaluates_new PACKET_HISTORY_SIZE s.c O (shifted_seqno v) = false ∧
    (recv_from_ipolite PACKET_HISTORY_SIZE HOPS_MAX queuebuf_ok ipolite_ok s
        { hdr := { originator_seqno := shifted_seqno v, originator := O, hops := hops },
          payload := payload } sender).trace = [] ∧
    (recv_from_ipolite PACKET_HISTORY_SIZE HOPS_MAX queuebuf_ok ipolite_ok s
        { hdr := { originator_seqno := shifted_seqno v, originator := O, hops := hops },
          payload := payload } sender).state = some s := by
  have hold : evaluates_new PACKET_HISTORY_SIZE s.c O (shifted_seqno v) = false := by
    rw [← Bool.not_eq_true, evaluates_new_of_get _ _ _ _ _ hget,
      is_new_pred_iff _ _ _ hv (history_get_some _ _ _ _ hget).1]
    omega
  rw [recv_stale PACKET_HISTORY_SIZE HOPS_MAX queuebuf_ok ipolite_ok s cb _ sender hcb hold]
  exact ⟨hold, rfl, rfl⟩

/-- Instance of the amended C19 at `v = 3`: the history holds 8 and 6 arrives. -/
theorem adjacent_older_stale_away_from_flip_witness :
    history_get 2 (conn1 (some cb_accept) 8) 5 = some (shifted_seqno ((3 + 1) % 256)) ∧
    (recv_from_ipolite 2 16 true true { c := conn1 (some cb_accept) 8, seqno := 0 }
        { hdr := { originator_seqno := shifted_seqno 3, originator := 5, hops := 0 },
          payload := [1, 2] } 8).trace = [] :=
  ⟨by decide, (adjacent_older_stale_away_from_flip 2 16 true true
    { c := conn1 (some cb_accept) 8, seqno := 0 } cb_accept 5 3 0 [1, 2] 8 (by decide)
    (by decide) (by decide) rfl (by decide)).2.1⟩

/-- C20. No receive callback: on a connection whose callback set has no receive callback, a
received packet (new or not, any hop count, snapshot or not) causes no `ipolite_send`, no
other call, and leaves the state (history arrays, cursor, `seqno`) unchanged. -/
theorem no_callback_no_effect (PACKET_HISTORY_SIZE HOPS_MAX : Nat)
    (queuebuf_ok ipolite_ok : Bool) (s : State) (pkt : Packet) (sender : linkaddr_t)
    (hcb : s.c.u.recv = none) :
    (recv_from_ipolite PACKET_HISTORY_SIZE HOPS_MAX queuebuf_ok ipolite_ok s pkt sender).trace
      = [] ∧
    (recv_from_ipolite PACKET_HISTORY_SIZE HOPS_MAX queuebuf_ok ipolite_ok s pkt sender).state
      = some s := by
  simp [recv_from_ipolite, hcb]

/-- Instance of C20: a packet from an originator the table does not hold. -/
theorem no_callback_no_effect_witness :
    evaluates_new 2 (conn0 none) 5 2 = true ∧
    (recv_from_ipolite 2 16 true true { c := conn0 none, seqno := 3 } (pkt5 0) 8).trace = [] :=
  ⟨by decide, (no_callback_no_effect 2 16 true true { c := conn0 none, seqno := 3 } (pkt5 0) 8
    rfl).1⟩

end Netflood2
